import Mathlib

/-!
Healthcare chaincode: patient records on a Fabric ledger.

A shallow embedding of `chaincode/healthcare/go/healthcare.go` and the
properties its specification states about it.

Conventions of the embedding:

* a Go `string` and a Go `[]byte` holding text are Lean `String`s (sequences
  of Unicode scalar values, that is, valid UTF-8 text);
* a Go `error` is its message; a fallible call returns `Except String _`;
* the Fabric stub, the client identity and the wall clock are collaborators
  of the contract: the contract functions take them through the transaction
  context, and `Ledger.stub` is the fault-free stub over a concrete ledger;
* `encoding/json` is embedded as far as the contract uses it: the compact
  output of `json.Marshal` with HTML escaping, and a decoder for RFC 8259
  texts with the field matching rules of `json.Unmarshal`.
-/

namespace Healthcare

/-! ## `encoding/json`: strings -/

namespace json

/-- The double quote character. -/
def dquote : Char := Char.ofNat 34

/-- The backslash character. -/
def bslash : Char := Char.ofNat 92

/-- The lower-case hexadecimal digit of a number below sixteen. -/
def hexDigit (n : Nat) : Char :=
  if n < 10 then Char.ofNat (48 + n) else Char.ofNat (87 + n)

/-- The value of a hexadecimal digit, in either case. -/
def hexVal (c : Char) : Option Nat :=
  let n := c.toNat
  if 48 ≤ n ∧ n ≤ 57 then some (n - 48)
  else if 97 ≤ n ∧ n ≤ 102 then some (n - 87)
  else if 65 ≤ n ∧ n ≤ 70 then some (n - 55)
  else none

/-- The escaped form of one character inside a JSON string, as `json.Marshal`
writes it with HTML escaping on: quote and backslash get a backslash, the
control characters their short form or `\u00XX`, and `<`, `>`, `&`, U+2028
and U+2029 a `\u` escape; every other character is copied. -/
def escapeChar (c : Char) : List Char :=
  if c = dquote ∨ c = bslash then [bslash, c]
  else if c.toNat = 8 then [bslash, 'b']
  else if c.toNat = 12 then [bslash, 'f']
  else if c.toNat = 10 then [bslash, 'n']
  else if c.toNat = 13 then [bslash, 'r']
  else if c.toNat = 9 then [bslash, 't']
  else if c.toNat < 32 ∨ c = '<' ∨ c = '>' ∨ c = '&' then
    [bslash, 'u', '0', '0', hexDigit (c.toNat / 16), hexDigit (c.toNat % 16)]
  else if c.toNat = 8232 then [bslash, 'u', '2', '0', '2', '8']
  else if c.toNat = 8233 then [bslash, 'u', '2', '0', '2', '9']
  else [c]

/-- The escaped body of a JSON string, without the surrounding quotes. -/
def escape : List Char → List Char
  | [] => []
  | c :: cs => escapeChar c ++ escape cs

/-- A JSON string literal, quotes included. -/
def quote (s : String) : List Char :=
  dquote :: (escape s.data ++ [dquote])

/-- Four hexadecimal digits read as a number (`getu4`). -/
def getu4 (a b c d : Char) : Option Nat :=
  match hexVal a, hexVal b, hexVal c, hexVal d with
  | some x, some y, some z, some w => some (x * 4096 + y * 256 + z * 16 + w)
  | _, _, _, _ => none

/-- The character a one-letter escape stands for. -/
def unescapeChar (e : Char) : Option Char :=
  if e = dquote ∨ e = bslash ∨ e = '/' then some e
  else if e = 'b' then some (Char.ofNat 8)
  else if e = 'f' then some (Char.ofNat 12)
  else if e = 'n' then some (Char.ofNat 10)
  else if e = 'r' then some (Char.ofNat 13)
  else if e = 't' then some (Char.ofNat 9)
  else none

/-- The low half of a surrogate pair written as a `\uXXXX` escape at the
head of the input, with the input after it. -/
def lowSurrogate (cs : List Char) : Option (Nat × List Char) :=
  match cs with
  | b :: u :: h1 :: h2 :: h3 :: h4 :: rest =>
    if b = bslash ∧ u = 'u' then
      match getu4 h1 h2 h3 h4 with
      | some lo => if 56320 ≤ lo ∧ lo < 57344 then some (lo, rest) else none
      | none => none
    else none
  | _ => none

/-- The body of a JSON string up to its closing quote: the decoded text and
the input after the quote. A raw control character, a bad escape, or input
that ends before the quote make it fail; a surrogate escape that is not half
of a valid pair decodes to U+FFFD. The first argument bounds the number of
steps. -/
def parseStringBody : Nat → List Char → Option (List Char × List Char)
  | 0, _ => none
  | _ + 1, [] => none
  | n + 1, c :: cs =>
    if c = dquote then some ([], cs)
    else if c = bslash then
      match cs with
      | [] => none
      | e :: cs1 =>
        if e = 'u' then
          match cs1 with
          | h1 :: h2 :: h3 :: h4 :: cs2 =>
            match getu4 h1 h2 h3 h4 with
            | none => none
            | some hi =>
              if 55296 ≤ hi ∧ hi < 57344 then
                match (if hi < 56320 then lowSurrogate cs2 else none) with
                | some (lo, cs3) =>
                  (parseStringBody n cs3).map fun p =>
                    (Char.ofNat (65536 + (hi - 55296) * 1024 + (lo - 56320)) :: p.1, p.2)
                | none =>
                  (parseStringBody n cs2).map fun p => (Char.ofNat 65533 :: p.1, p.2)
              else
                (parseStringBody n cs2).map fun p => (Char.ofNat hi :: p.1, p.2)
          | _ => none
        else
          match unescapeChar e with
          | none => none
          | some x => (parseStringBody n cs1).map fun p => (x :: p.1, p.2)
    else if c.toNat < 32 then none
    else (parseStringBody n cs).map fun p => (c :: p.1, p.2)

end json

end Healthcare

namespace Healthcare

/-! ## `encoding/json`: values -/

namespace json

/-- A JSON value. A number keeps its literal text. -/
inductive Value where
  | null : Value
  | bool (b : Bool) : Value
  | number (lit : String) : Value
  | string (s : String) : Value
  | array (xs : List Value) : Value
  | object (ms : List (String × Value)) : Value

mutual
/-- The compact text of a value, as `json.Marshal` writes it. -/
def render : Value → List Char
  | .null => ['n', 'u', 'l', 'l']
  | .bool true => ['t', 'r', 'u', 'e']
  | .bool false => ['f', 'a', 'l', 's', 'e']
  | .number lit => lit.data
  | .string s => quote s
  | .array xs => '[' :: (renderElems xs ++ [']'])
  | .object ms => '{' :: (renderMembers ms ++ ['}'])
/-- The elements of an array, separated by commas. -/
def renderElems : List Value → List Char
  | [] => []
  | x :: xs => render x ++ renderElemsTail xs
/-- The elements after the first, each preceded by a comma. -/
def renderElemsTail : List Value → List Char
  | [] => []
  | x :: xs => ',' :: (render x ++ renderElemsTail xs)
/-- The members of an object, separated by commas. -/
def renderMembers : List (String × Value) → List Char
  | [] => []
  | (k, v) :: ms => quote k ++ ':' :: (render v ++ renderMembersTail ms)
/-- The members after the first, each preceded by a comma. -/
def renderMembersTail : List (String × Value) → List Char
  | [] => []
  | (k, v) :: ms => ',' :: (quote k ++ ':' :: (render v ++ renderMembersTail ms))
end

/-- JSON white space: space, tab, line feed, carriage return. -/
def isSpace (c : Char) : Bool :=
  c.toNat = 32 || c.toNat = 9 || c.toNat = 10 || c.toNat = 13

/-- The input after its leading white space. -/
def skipWs : List Char → List Char
  | [] => []
  | c :: cs => if isSpace c then skipWs cs else c :: cs

/-- A decimal digit. -/
def isDigit (c : Char) : Bool := 48 ≤ c.toNat && c.toNat ≤ 57

/-- The leading digits of the input, and the input after them. -/
def takeDigits : List Char → List Char × List Char
  | [] => ([], [])
  | c :: cs => if isDigit c then ((takeDigits cs).1.cons c, (takeDigits cs).2) else ([], c :: cs)

/-- The integer part of a number: a single `0`, or a non-zero digit and the
digits after it. -/
def scanInt : List Char → Option (List Char × List Char)
  | [] => none
  | c :: cs =>
    if c = '0' then some (['0'], cs)
    else if isDigit c then some (c :: (takeDigits cs).1, (takeDigits cs).2)
    else none

/-- The optional fraction of a number: a point and at least one digit. -/
def scanFrac : List Char → Option (List Char × List Char)
  | [] => some ([], [])
  | c :: cs =>
    if c = '.' then
      match takeDigits cs with
      | ([], _) => none
      | (ds, rest) => some ('.' :: ds, rest)
    else some ([], c :: cs)

/-- The optional exponent of a number: `e` or `E`, an optional sign and at
least one digit. -/
def scanExp : List Char → Option (List Char × List Char)
  | [] => some ([], [])
  | c :: cs =>
    if c = 'e' ∨ c = 'E' then
      match cs with
      | [] => none
      | s :: cs1 =>
        if s = '+' ∨ s = '-' then
          match takeDigits cs1 with
          | ([], _) => none
          | (ds, rest) => some (c :: s :: ds, rest)
        else
          match takeDigits (s :: cs1) with
          | ([], _) => none
          | (ds, rest) => some (c :: ds, rest)
    else some ([], c :: cs)

/-- A number literal at the head of the input, and the input after it. -/
def scanNumber (cs : List Char) : Option (List Char × List Char) :=
  let body (neg : List Char) (cs : List Char) : Option (List Char × List Char) :=
    match scanInt cs with
    | none => none
    | some (i, r1) =>
      match scanFrac r1 with
      | none => none
      | some (f, r2) =>
        match scanExp r2 with
        | none => none
        | some (e, r3) => some (neg ++ i ++ f ++ e, r3)
  match cs with
  | [] => none
  | c :: cs1 => if c = '-' then body ['-'] cs1 else body [] (c :: cs1)

/-- The input after a given word, when the input starts with it. -/
def expect : List Char → List Char → Option (List Char)
  | [], cs => some cs
  | _ :: _, [] => none
  | w :: ws, c :: cs => if w = c then expect ws cs else none

mutual
/-- A JSON value at the head of the input (after white space), with the input
after it. The first argument bounds the number of nested steps. -/
def parseValue : Nat → List Char → Option (Value × List Char)
  | 0, _ => none
  | n + 1, cs =>
    match skipWs cs with
    | [] => none
    | c :: r =>
      if c = dquote then
        (parseStringBody (r.length + 1) r).map fun p => (Value.string (String.mk p.1), p.2)
      else if c = '[' then
        match skipWs r with
        | [] => none
        | c1 :: r1 =>
          if c1 = ']' then some (Value.array [], r1)
          else (parseElems n (c1 :: r1)).map fun p => (Value.array p.1, p.2)
      else if c = '{' then
        match skipWs r with
        | [] => none
        | c1 :: r1 =>
          if c1 = '}' then some (Value.object [], r1)
          else (parseMembers n (c1 :: r1)).map fun p => (Value.object p.1, p.2)
      else if c = 't' then (expect ['r', 'u', 'e'] r).map fun r1 => (Value.bool true, r1)
      else if c = 'f' then (expect ['a', 'l', 's', 'e'] r).map fun r1 => (Value.bool false, r1)
      else if c = 'n' then (expect ['u', 'l', 'l'] r).map fun r1 => (Value.null, r1)
      else (scanNumber (c :: r)).map fun p => (Value.number (String.mk p.1), p.2)
/-- The elements of a non-empty array up to its closing bracket. -/
def parseElems : Nat → List Char → Option (List Value × List Char)
  | 0, _ => none
  | n + 1, cs =>
    match parseValue n cs with
    | none => none
    | some (v, r) =>
      match skipWs r with
      | [] => none
      | c :: r1 =>
        if c = ']' then some ([v], r1)
        else if c = ',' then (parseElems n r1).map fun p => (v :: p.1, p.2)
        else none
/-- The members of a non-empty object up to its closing brace. -/
def parseMembers : Nat → List Char → Option (List (String × Value) × List Char)
  | 0, _ => none
  | n + 1, cs =>
    match skipWs cs with
    | [] => none
    | q :: r =>
      if q = dquote then
        match parseStringBody (r.length + 1) r with
        | none => none
        | some (k, r1) =>
          match skipWs r1 with
          | [] => none
          | c :: r2 =>
            if c = ':' then
              match parseValue n r2 with
              | none => none
              | some (v, r3) =>
                match skipWs r3 with
                | [] => none
                | d :: r4 =>
                  if d = '}' then some ([(String.mk k, v)], r4)
                  else if d = ',' then
                    (parseMembers n r4).map fun p => ((String.mk k, v) :: p.1, p.2)
                  else none
            else none
      else none
end

/-- A whole JSON text: one value with nothing but white space around it. -/
def parse (s : String) : Option Value :=
  match parseValue (s.length + 1) s.data with
  | none => none
  | some (v, rest) => if skipWs rest = [] then some v else none

end json

end Healthcare

namespace Healthcare

namespace json

mutual
/-- Whether a value contains no number. -/
def plain : Value → Bool
  | .null => true
  | .bool _ => true
  | .number _ => false
  | .string _ => true
  | .array xs => plainElems xs
  | .object ms => plainMembers ms
/-- Whether no element contains a number. -/
def plainElems : List Value → Bool
  | [] => true
  | x :: xs => plain x && plainElems xs
/-- Whether no member value contains a number. -/
def plainMembers : List (String × Value) → Bool
  | [] => true
  | (_, v) :: ms => plain v && plainMembers ms
end

mutual
/-- The number of nested parser steps that reading a value back takes. -/
def cost : Value → Nat
  | .null => 1
  | .bool _ => 1
  | .number _ => 1
  | .string _ => 1
  | .array xs => 1 + costElems xs
  | .object ms => 1 + costMembers ms
/-- The steps for the elements of an array. -/
def costElems : List Value → Nat
  | [] => 0
  | x :: xs => 1 + cost x + costElems xs
/-- The steps for the members of an object. -/
def costMembers : List (String × Value) → Nat
  | [] => 0
  | (_, v) :: ms => 1 + cost v + costMembers ms
end

end json

end Healthcare

namespace Healthcare

/-! ## The patient record and its wire format -/

/-- The record `PatientRecord` of the chaincode; every field is a Go string. -/
structure PatientRecord where
  DocType : String
  RecordID : String
  PatientName : String
  DateOfBirth : String
  Gender : String
  BloodType : String
  Diagnosis : String
  Treatment : String
  Allergies : String
  Medications : String
  CreatedBy : String
  CreatedAt : String
  LastUpdatedBy : String
  LastUpdatedAt : String
  Status : String
  deriving DecidableEq, Repr

/-- The zero value of `PatientRecord` (`var record PatientRecord`). -/
def PatientRecord.zero : PatientRecord :=
  ⟨"", "", "", "", "", "", "", "", "", "", "", "", "", "", ""⟩

/-- The JSON object of a record: the fields in declaration order under the
names of their `json` tags. -/
def PatientRecord.toJSON (r : PatientRecord) : json.Value :=
  .object [
    ("docType", .string r.DocType),
    ("recordID", .string r.RecordID),
    ("patientName", .string r.PatientName),
    ("dateOfBirth", .string r.DateOfBirth),
    ("gender", .string r.Gender),
    ("bloodType", .string r.BloodType),
    ("diagnosis", .string r.Diagnosis),
    ("treatment", .string r.Treatment),
    ("allergies", .string r.Allergies),
    ("medications", .string r.Medications),
    ("createdBy", .string r.CreatedBy),
    ("createdAt", .string r.CreatedAt),
    ("lastUpdatedBy", .string r.LastUpdatedBy),
    ("lastUpdatedAt", .string r.LastUpdatedAt),
    ("status", .string r.Status)]

/-- The result of `json.Marshal(record)`; it cannot fail for a record of
strings. -/
def marshalRecord (r : PatientRecord) : String :=
  String.mk (json.render r.toJSON)

/-- The `json` tags of the record's fields, in declaration order. -/
def fieldNames : List String :=
  ["docType", "recordID", "patientName", "dateOfBirth", "gender", "bloodType", "diagnosis",
   "treatment", "allergies", "medications", "createdBy", "createdAt", "lastUpdatedBy",
   "lastUpdatedAt", "status"]

/-- The case folding under which `json.Unmarshal` compares an object key with
a field name: ASCII letters to upper case, and the two other characters whose
simple fold is an ASCII letter (U+017F and U+212A) to that letter. -/
def foldChar (c : Char) : Char :=
  if 97 ≤ c.toNat ∧ c.toNat ≤ 122 then Char.ofNat (c.toNat - 32)
  else if c.toNat = 383 then 'S'
  else if c.toNat = 8490 then 'K'
  else c

/-- A name with every character folded. -/
def foldName (s : String) : List Char := s.data.map foldChar

/-- The field an object key selects: the field of that exact name, else the
first field whose name equals the key under case folding. -/
def matchField (key : String) : Option String :=
  if key ∈ fieldNames then some key
  else fieldNames.find? fun f => foldName f = foldName key

/-- The record with the field of a given tag replaced. -/
def setField (r : PatientRecord) (name : String) (v : String) : PatientRecord :=
  if name = "docType" then { r with DocType := v }
  else if name = "recordID" then { r with RecordID := v }
  else if name = "patientName" then { r with PatientName := v }
  else if name = "dateOfBirth" then { r with DateOfBirth := v }
  else if name = "gender" then { r with Gender := v }
  else if name = "bloodType" then { r with BloodType := v }
  else if name = "diagnosis" then { r with Diagnosis := v }
  else if name = "treatment" then { r with Treatment := v }
  else if name = "allergies" then { r with Allergies := v }
  else if name = "medications" then { r with Medications := v }
  else if name = "createdBy" then { r with CreatedBy := v }
  else if name = "createdAt" then { r with CreatedAt := v }
  else if name = "lastUpdatedBy" then { r with LastUpdatedBy := v }
  else if name = "lastUpdatedAt" then { r with LastUpdatedAt := v }
  else if name = "status" then { r with Status := v }
  else r

/-- The members of a JSON object stored into a record, in order: a key that
selects no field is skipped, a string value is stored, `null` leaves the
field as it is, and any other value is a type error. -/
def decodeMembers : List (String × json.Value) → PatientRecord → Option PatientRecord
  | [], r => some r
  | (k, v) :: ms, r =>
    match matchField k with
    | none => decodeMembers ms r
    | some f =>
      match v with
      | .string s => decodeMembers ms (setField r f s)
      | .null => decodeMembers ms r
      | _ => none

/-- A JSON value decoded into a fresh record: `null` leaves the zero record,
an object is decoded member by member, anything else is a type error. -/
def decodeRecord : json.Value → Option PatientRecord
  | .null => some PatientRecord.zero
  | .object ms => decodeMembers ms PatientRecord.zero
  | _ => none

/-- The message of the error of `json.Unmarshal` for a text that is not JSON.
The wording of Go's message is not modelled. -/
def syntaxError : String := "invalid JSON text"

/-- The message of the error of `json.Unmarshal` for a JSON value of the wrong
type. The wording of Go's message is not modelled. -/
def typeError : String := "json: cannot unmarshal value into Go value of type PatientRecord"

/-- The result of `json.Unmarshal(data, &record)` on a fresh record. -/
def unmarshalRecord (data : String) : Except String PatientRecord :=
  match json.parse data with
  | none => .error syntaxError
  | some v =>
    match decodeRecord v with
    | none => .error typeError
    | some r => .ok r

end Healthcare

namespace Healthcare

/-! ## `time`: the RFC 3339 layout in UTC -/

/-- A number in decimal, padded with zeros on the left to a given width. -/
def pad (width n : Nat) : String :=
  String.mk (List.replicate (width - (Nat.repr n).length) '0') ++ Nat.repr n

/-- The year of a date the way the layout prints it: at least four digits,
with a minus sign before a negative year. -/
def formatYear (y : Int) : String :=
  if y < 0 then "-" ++ pad 4 y.natAbs else pad 4 y.toNat

/-- The civil date (year, month, day) of a day count since 1970-01-01 in the
proleptic Gregorian calendar. -/
def civilFromDays (days : Int) : Int × Nat × Nat :=
  let z := days + 719468
  let era := z / 146097
  let doe := (z - era * 146097).toNat
  let yoe := (doe - doe / 1460 + doe / 36524 - doe / 146096) / 365
  let doy := doe - (365 * yoe + yoe / 4 - yoe / 100)
  let mp := (5 * doy + 2) / 153
  let d := doy - (153 * mp + 2) / 5 + 1
  let m := if mp < 10 then mp + 3 else mp - 9
  let y := (yoe : Int) + era * 400
  (if m ≤ 2 then y + 1 else y, m, d)

/-- The text of `t.UTC().Format(time.RFC3339)` for the instant a given number
of seconds after the Unix epoch: `YYYY-MM-DDTHH:MM:SSZ`. -/
def formatRFC3339 (unix : Int) : String :=
  let days := unix / 86400
  let secs := (unix % 86400).toNat
  let date := civilFromDays days
  formatYear date.1 ++ "-" ++ pad 2 date.2.1 ++ "-" ++ pad 2 date.2.2 ++ "T"
    ++ pad 2 (secs / 3600) ++ ":" ++ pad 2 (secs % 3600 / 60) ++ ":" ++ pad 2 (secs % 60) ++ "Z"

/-- The instant `time.Unix(sec, nsec)` in whole seconds after the epoch:
nanoseconds outside one second carry into the seconds. -/
def timeUnix (sec nsec : Int) : Int := sec + nsec / 1000000000

end Healthcare

namespace Healthcare

/-! ## The collaborators: stub, client identity, clock -/

/-- A protobuf timestamp: seconds and nanoseconds since the Unix epoch. -/
structure Timestamp where
  Seconds : Int
  Nanos : Int
  deriving DecidableEq, Repr

/-- One result of a range or rich query (`queryresult.KV`). -/
structure KV where
  Key : String
  Value : String
  deriving DecidableEq, Repr

/-- One entry of the change-log of a key (`queryresult.KeyModification`). -/
structure KeyModification where
  TxId : String
  Value : String
  Timestamp : Timestamp
  IsDelete : Bool
  deriving DecidableEq, Repr

/-- A state iterator, as the results of its successive `Next()` calls;
`HasNext()` holds while the list is not empty. -/
abbrev StateIterator := List (Except String KV)

/-- A history iterator, as the results of its successive `Next()` calls. -/
abbrev HistoryIterator := List (Except String KeyModification)

/-- The part of `shim.ChaincodeStubInterface` the contract calls. `GetState`
returns `none` for an absent key (a nil slice). `PutState` tells whether the
stub takes the write; the writes taken are collected in the outcome of the
operation. -/
structure ChaincodeStub where
  GetState : String → Except String (Option String)
  PutState : String → String → Except String Unit
  GetStateByRange : String → String → Except String StateIterator
  GetQueryResult : String → Except String StateIterator
  GetHistoryForKey : String → Except String HistoryIterator

/-- What one invocation sees: the stub (`ctx.GetStub()`), the MSP id of the
caller (`ctx.GetClientIdentity().GetMSPID()`) and the wall clock, whose
`n`-th reading during the invocation is `clock n`, in seconds since the Unix
epoch. -/
structure TransactionContext where
  GetStub : ChaincodeStub
  GetMSPID : Except String String
  clock : Nat → Int

/-- The outcome of an operation that may write: the error it returns (`none`
for nil) and the writes the stub took before it returned, in order. -/
structure Outcome where
  err : Option String
  writes : List (String × String)
  deriving DecidableEq, Repr

/-! ## The contract -/

/-- The two sample records of `InitLedger`, before the loop stamps them. -/
def seedRecords (ctx : TransactionContext) : List PatientRecord :=
  [ { DocType := "patientRecord"
      RecordID := "PAT-001"
      PatientName := "Ahmad Khan"
      DateOfBirth := "1985-03-15"
      Gender := "Male"
      BloodType := "O+"
      Diagnosis := "Type 2 Diabetes"
      Treatment := "Metformin 500mg, lifestyle counseling"
      Allergies := "Penicillin"
      Medications := "Metformin"
      CreatedBy := "OHGHospitalOrg"
      CreatedAt := formatRFC3339 (ctx.clock 0)
      LastUpdatedBy := ""
      LastUpdatedAt := ""
      Status := "active" },
    { DocType := "patientRecord"
      RecordID := "PAT-002"
      PatientName := "Fatima Ali"
      DateOfBirth := "1990-07-22"
      Gender := "Female"
      BloodType := "A+"
      Diagnosis := "Hypertension Stage 1"
      Treatment := "Amlodipine 5mg, dietary changes"
      Allergies := "None"
      Medications := "Amlodipine"
      CreatedBy := "OHGClinicOrg"
      CreatedAt := formatRFC3339 (ctx.clock 1)
      LastUpdatedBy := ""
      LastUpdatedAt := ""
      Status := "active" } ]

/-- The loop of `InitLedger` over the records still to write, with the writes
taken so far. -/
def seedLoop (ctx : TransactionContext) :
    List PatientRecord → List (String × String) → Outcome
  | [], writes => ⟨none, writes⟩
  | record :: rest, writes =>
    let record := { record with
      LastUpdatedBy := record.CreatedBy, LastUpdatedAt := record.CreatedAt }
    let recordJSON := marshalRecord record
    match ctx.GetStub.PutState record.RecordID recordJSON with
    | .error err =>
      ⟨some ("failed to put record " ++ record.RecordID ++ ": " ++ err), writes⟩
    | .ok _ => seedLoop ctx rest (writes ++ [(record.RecordID, recordJSON)])

/-- The operation `InitLedger`: seeds the ledger with sample patient records. -/
def InitLedger (ctx : TransactionContext) : Outcome :=
  seedLoop ctx (seedRecords ctx) []

/-- The operation `CreateRecord`: creates a new patient health record. -/
def CreateRecord (ctx : TransactionContext)
    (recordID patientName dateOfBirth gender bloodType diagnosis treatment allergies
      medications : String) : Outcome :=
  match ctx.GetStub.GetState recordID with
  | .error err => ⟨some ("failed to read from world state: " ++ err), []⟩
  | .ok (some _) => ⟨some ("patient record " ++ recordID ++ " already exists"), []⟩
  | .ok none =>
    match ctx.GetMSPID with
    | .error err => ⟨some ("failed to get client MSPID: " ++ err), []⟩
    | .ok clientMSPID =>
      let now := formatRFC3339 (ctx.clock 0)
      let record : PatientRecord :=
        { DocType := "patientRecord"
          RecordID := recordID
          PatientName := patientName
          DateOfBirth := dateOfBirth
          Gender := gender
          BloodType := bloodType
          Diagnosis := diagnosis
          Treatment := treatment
          Allergies := allergies
          Medications := medications
          CreatedBy := clientMSPID
          CreatedAt := now
          LastUpdatedBy := clientMSPID
          LastUpdatedAt := now
          Status := "active" }
      let recordJSON := marshalRecord record
      match ctx.GetStub.PutState recordID recordJSON with
      | .error err => ⟨some err, []⟩
      | .ok _ => ⟨none, [(recordID, recordJSON)]⟩

/-- The operation `ReadRecord`: retrieves a patient record by ID. -/
def ReadRecord (ctx : TransactionContext) (recordID : String) : Except String PatientRecord :=
  match ctx.GetStub.GetState recordID with
  | .error err => .error ("failed to read from world state: " ++ err)
  | .ok none => .error ("patient record " ++ recordID ++ " does not exist")
  | .ok (some recordJSON) =>
    match unmarshalRecord recordJSON with
    | .error err => .error ("failed to unmarshal record: " ++ err)
    | .ok record => .ok record

/-- The operation `UpdateRecord`: updates an existing patient health record. -/
def UpdateRecord (ctx : TransactionContext)
    (recordID diagnosis treatment medications status : String) : Outcome :=
  match ctx.GetStub.GetState recordID with
  | .error err => ⟨some ("failed to read from world state: " ++ err), []⟩
  | .ok none => ⟨some ("patient record " ++ recordID ++ " does not exist"), []⟩
  | .ok (some recordJSON) =>
    match unmarshalRecord recordJSON with
    | .error err => ⟨some ("failed to unmarshal record: " ++ err), []⟩
    | .ok record =>
      match ctx.GetMSPID with
      | .error err => ⟨some ("failed to get client MSPID: " ++ err), []⟩
      | .ok clientMSPID =>
        let record := if diagnosis ≠ "" then { record with Diagnosis := diagnosis } else record
        let record := if treatment ≠ "" then { record with Treatment := treatment } else record
        let record :=
          if medications ≠ "" then { record with Medications := medications } else record
        let record := if status ≠ "" then { record with Status := status } else record
        let record := { record with
          LastUpdatedBy := clientMSPID
          LastUpdatedAt := formatRFC3339 (ctx.clock 0) }
        let updatedJSON := marshalRecord record
        match ctx.GetStub.PutState recordID updatedJSON with
        | .error err => ⟨some err, []⟩
        | .ok _ => ⟨none, [(recordID, updatedJSON)]⟩

/-- The loop shared by `GetAllRecords` and `QueryRecordsByDiagnosis`: every
result of the iterator decoded and appended to the records so far; the first
iteration or decoding error ends the operation. -/
def collectRecords : StateIterator → List PatientRecord → Except String (List PatientRecord)
  | [], records => .ok records
  | .error err :: _, _ => .error ("failed to iterate: " ++ err)
  | .ok queryResponse :: rest, records =>
    match unmarshalRecord queryResponse.Value with
    | .error err => .error ("failed to unmarshal: " ++ err)
    | .ok record => collectRecords rest (records ++ [record])

/-- The operation `GetAllRecords`: returns all patient records in the world state. -/
def GetAllRecords (ctx : TransactionContext) : Except String (List PatientRecord) :=
  match ctx.GetStub.GetStateByRange "" "" with
  | .error err => .error ("failed to get state by range: " ++ err)
  | .ok resultsIterator => collectRecords resultsIterator []

/-- The text `fmt.Sprintf` builds in `QueryRecordsByDiagnosis`: the diagnosis
is put between the quotes as it is. -/
def queryString (diagnosis : String) : String :=
  "\x7b\"selector\":\x7b\"docType\":\"patientRecord\",\"diagnosis\":\"" ++ diagnosis
    ++ "\"\x7d\x7d"

/-- The operation `QueryRecordsByDiagnosis`: uses CouchDB rich query to find records by
diagnosis. -/
def QueryRecordsByDiagnosis (ctx : TransactionContext) (diagnosis : String) :
    Except String (List PatientRecord) :=
  match ctx.GetStub.GetQueryResult (queryString diagnosis) with
  | .error err => .error ("failed to execute rich query: " ++ err)
  | .ok resultsIterator => collectRecords resultsIterator []

/-- The local type `HistoryEntry` of `GetRecordHistory`; `Record` is `none`
for a nil pointer. -/
structure HistoryEntry where
  TxID : String
  Timestamp : String
  IsDelete : Bool
  Record : Option PatientRecord
  deriving DecidableEq, Repr

/-- The entry `GetRecordHistory` builds for one modification: the snapshot is
set only when the modification is not a deletion and its value decodes. -/
def historyEntry (modification : KeyModification) : HistoryEntry :=
  let entry : HistoryEntry :=
    { TxID := modification.TxId
      Timestamp :=
        formatRFC3339 (timeUnix modification.Timestamp.Seconds modification.Timestamp.Nanos)
      IsDelete := modification.IsDelete
      Record := none }
  if ¬ modification.IsDelete then
    match unmarshalRecord modification.Value with
    | .ok record => { entry with Record := some record }
    | .error _ => entry
  else entry

/-- The loop of `GetRecordHistory`: one entry per modification, appended to
the history so far; an iteration error ends the operation. -/
def collectHistory : HistoryIterator → List HistoryEntry → Except String (List HistoryEntry)
  | [], history => .ok history
  | .error err :: _, _ => .error ("failed to iterate history: " ++ err)
  | .ok modification :: rest, history =>
    collectHistory rest (history ++ [historyEntry modification])

/-- The JSON object of a history entry; a nil record is left out
(`omitempty`). -/
def HistoryEntry.toJSON (e : HistoryEntry) : json.Value :=
  .object ([("txId", .string e.TxID), ("timestamp", .string e.Timestamp),
      ("isDelete", .bool e.IsDelete)]
    ++ match e.Record with
       | none => []
       | some r => [("record", r.toJSON)])

/-- The result of `json.Marshal(history)`: `null` for the nil slice of a
loop that never ran, else the array of the entries. -/
def marshalHistory : List HistoryEntry → String
  | [] => "null"
  | e :: es => String.mk (json.render (.array ((e :: es).map HistoryEntry.toJSON)))

/-- The operation `GetRecordHistory`: returns the full modification history for a patient
record. -/
def GetRecordHistory (ctx : TransactionContext) (recordID : String) : Except String String :=
  match ctx.GetStub.GetHistoryForKey recordID with
  | .error err => .error ("failed to get history for " ++ recordID ++ ": " ++ err)
  | .ok historyIterator =>
    match collectHistory historyIterator [] with
    | .error err => .error err
    | .ok history => .ok (marshalHistory history)

end Healthcare

namespace Healthcare

/-! ## A ledger behind the stub

The world state is a list of key and value pairs kept in ascending key order;
keys are ordered as their character sequences are, which for UTF-8 text is
the byte order of the store. The change-log holds one entry per key written
by a committed transaction, oldest first, which is the order the
specification takes the store to hand the history of a key out in. -/

/-- The ledger: current values and the change-log. -/
structure Ledger where
  state : List (String × String)
  log : List (String × KeyModification)
  deriving DecidableEq, Repr

/-- The ledger before any transaction. -/
def Ledger.empty : Ledger := ⟨[], []⟩

/-- The value a key holds in a world state. -/
def lookupKey (k : String) : List (String × String) → Option String
  | [] => none
  | (k1, v1) :: rest => if k1 = k then some v1 else lookupKey k rest

/-- A world state with a key set to a value: replaced where the key is,
inserted before the first greater key otherwise. -/
def putKey (k v : String) : List (String × String) → List (String × String)
  | [] => [(k, v)]
  | (k1, v1) :: rest =>
    if k1 = k then (k, v) :: rest
    else if k.data < k1.data then (k, v) :: (k1, v1) :: rest
    else (k1, v1) :: putKey k v rest

/-- The value a key holds in the ledger. -/
def Ledger.get (l : Ledger) (k : String) : Option String := lookupKey k l.state

/-- The change-log of a key, oldest entry first. -/
def Ledger.history (l : Ledger) (k : String) : List KeyModification :=
  l.log.filterMap fun e => if e.1 = k then some e.2 else none

/-- Whether a key lies in the range from a start key (inclusive) to an end
key (exclusive); an empty bound is no bound. -/
def inRange (startKey endKey k : String) : Bool :=
  (startKey = "" ∨ ¬ k.data < startKey.data) ∧ (endKey = "" ∨ k.data < endKey.data)

/-- The first member of a given name in a JSON object. -/
def fieldOf (name : String) : List (String × json.Value) → Option json.Value
  | [] => none
  | (k, v) :: rest => if k = name then some v else fieldOf name rest

/-- The conditions of a rich query: the members of the `selector` object of
the query text, when the text is a JSON object that has one. -/
def selectorOf (query : String) : Option (List (String × json.Value)) :=
  match json.parse query with
  | some (.object ms) =>
    match fieldOf "selector" ms with
    | some (.object conds) => some conds
    | _ => none
  | _ => none

/-- Whether a stored value is selected: it is a JSON object in which every
field a condition names holds the literal of the condition. This is the
fragment of the selector language with literal conditions only. -/
def selects (conds : List (String × json.Value)) (doc : String) : Bool :=
  match json.parse doc with
  | some (.object fields) =>
    conds.all fun c =>
      match fieldOf c.1 fields with
      | some v => json.render v = json.render c.2
      | none => false
  | _ => false

/-- The message of the store for a query text it cannot read. The wording is
not modelled. -/
def queryError : String := "invalid query"

/-- The stub over a ledger, without faults of its own: reads see the ledger,
`PutState` refuses only the empty key, a range scan and a rich query return
the selected entries in key order, and the history of a key is its
change-log. -/
def Ledger.stub (l : Ledger) : ChaincodeStub where
  GetState := fun k => .ok (l.get k)
  PutState := fun k _ => if k = "" then .error "key must not be an empty string" else .ok ()
  GetStateByRange := fun startKey endKey =>
    .ok ((l.state.filter fun e => inRange startKey endKey e.1).map fun e => .ok ⟨e.1, e.2⟩)
  GetQueryResult := fun query =>
    match selectorOf query with
    | none => .error queryError
    | some conds =>
      .ok ((l.state.filter fun e => selects conds e.2).map fun e => .ok ⟨e.1, e.2⟩)
  GetHistoryForKey := fun k => .ok ((l.history k).map .ok)

/-- A transaction proposal: its id and timestamp, the MSP id the identity of
the caller resolves to (or the error of resolving it), and the readings of the
wall clock during the invocation. -/
structure Proposal where
  TxID : String
  Timestamp : Timestamp
  Creator : Except String String
  clock : Nat → Int

/-- The transaction context of a proposal against a ledger. -/
def Ledger.context (l : Ledger) (p : Proposal) : TransactionContext :=
  ⟨l.stub, p.Creator, p.clock⟩

/-- The write set of a transaction: for every key the last value written. -/
def lastWrites : List (String × String) → List (String × String)
  | [] => []
  | (k, v) :: ws => if ws.any (fun w => w.1 = k) then lastWrites ws else (k, v) :: lastWrites ws

/-- The ledger after a transaction with the given writes commits: the values
are set and every key written gets one change-log entry. -/
def Ledger.commit (l : Ledger) (p : Proposal) (writes : List (String × String)) : Ledger :=
  { state := (lastWrites writes).foldl (fun s w => putKey w.1 w.2 s) l.state
    log := l.log ++ (lastWrites writes).map fun w =>
      (w.1, { TxId := p.TxID, Value := w.2, Timestamp := p.Timestamp, IsDelete := false }) }

/-- One invocation as a transaction: the error the operation returns, and the
ledger afterwards. The writes are committed when the operation succeeds and
dropped when it fails. -/
def Ledger.invoke (l : Ledger) (p : Proposal) (op : TransactionContext → Outcome) :
    Option String × Ledger :=
  match (op (l.context p)).err with
  | none => (none, l.commit p (op (l.context p)).writes)
  | some e => (some e, l)

/-! ## Calls and runs, for stating properties of sequences of invocations -/

/-- The arguments of one `CreateRecord` call and its proposal. -/
structure CreateCall where
  proposal : Proposal
  recordID : String
  patientName : String
  dateOfBirth : String
  gender : String
  bloodType : String
  diagnosis : String
  treatment : String
  allergies : String
  medications : String

/-- The invocation of a `CreateRecord` call. -/
def CreateCall.run (c : CreateCall) (l : Ledger) : Option String × Ledger :=
  l.invoke c.proposal fun ctx =>
    CreateRecord ctx c.recordID c.patientName c.dateOfBirth c.gender c.bloodType c.diagnosis
      c.treatment c.allergies c.medications

/-- The record a `CreateRecord` call builds for a caller of a given MSP id. -/
def CreateCall.record (c : CreateCall) (mspID : String) : PatientRecord :=
  { DocType := "patientRecord"
    RecordID := c.recordID
    PatientName := c.patientName
    DateOfBirth := c.dateOfBirth
    Gender := c.gender
    BloodType := c.bloodType
    Diagnosis := c.diagnosis
    Treatment := c.treatment
    Allergies := c.allergies
    Medications := c.medications
    CreatedBy := mspID
    CreatedAt := formatRFC3339 (c.proposal.clock 0)
    LastUpdatedBy := mspID
    LastUpdatedAt := formatRFC3339 (c.proposal.clock 0)
    Status := "active" }

/-- The ledger after a sequence of `CreateRecord` calls that all succeed;
`none` when one of them fails. -/
def createAll : Ledger → List CreateCall → Option Ledger
  | l, [] => some l
  | l, c :: cs =>
    match (c.run l).1 with
    | none => createAll (c.run l).2 cs
    | some _ => none

/-- A ledger state that holds exactly the records of a list of `CreateRecord`
calls: the keys ascend strictly, there are as many entries as calls, every
entry is the id and marshalled record of a call, and every call has its
entry. -/
def HoldsCreated (l : Ledger) (calls : List CreateCall) : Prop :=
  List.Pairwise (fun a b => a.1.data < b.1.data) l.state
  ∧ l.state.length = calls.length
  ∧ (∀ e ∈ l.state, ∃ c ∈ calls, ∃ m, c.proposal.Creator = .ok m
      ∧ e = (c.recordID, marshalRecord (c.record m)))
  ∧ (∀ c ∈ calls, ∃ m, c.proposal.Creator = .ok m
      ∧ (c.recordID, marshalRecord (c.record m)) ∈ l.state)

/-- The arguments of one `UpdateRecord` call and its proposal. -/
structure UpdateCall where
  proposal : Proposal
  recordID : String
  diagnosis : String
  treatment : String
  medications : String
  status : String

/-- The invocation of an `UpdateRecord` call. -/
def UpdateCall.run (u : UpdateCall) (l : Ledger) : Option String × Ledger :=
  l.invoke u.proposal fun ctx =>
    UpdateRecord ctx u.recordID u.diagnosis u.treatment u.medications u.status

/-- The ledger after a sequence of `UpdateRecord` calls, failed ones
included. -/
def updateAll : Ledger → List UpdateCall → Ledger
  | l, [] => l
  | l, u :: us => updateAll (u.run l).2 us

/-- The record an update leaves for a stored record, a caller and a clock
reading: each of the four fields is replaced when its argument is not empty,
and the last-update fields are stamped. -/
def UpdateCall.apply (u : UpdateCall) (r : PatientRecord) (mspID : String) : PatientRecord :=
  { r with
    Diagnosis := if u.diagnosis ≠ "" then u.diagnosis else r.Diagnosis
    Treatment := if u.treatment ≠ "" then u.treatment else r.Treatment
    Medications := if u.medications ≠ "" then u.medications else r.Medications
    Status := if u.status ≠ "" then u.status else r.Status
    LastUpdatedBy := mspID
    LastUpdatedAt := formatRFC3339 (u.proposal.clock 0) }

/-! ## Reading a history payload back -/

/-- The members of the JSON object of a history entry stored into an entry:
the four tags are matched under case folding, an unknown key is skipped, and
a value of the wrong type is an error. -/
def decodeEntryMembers : List (String × json.Value) → HistoryEntry → Option HistoryEntry
  | [], e => some e
  | (k, v) :: ms, e =>
    if foldName k = foldName "txId" then
      match v with
      | .string s => decodeEntryMembers ms { e with TxID := s }
      | .null => decodeEntryMembers ms e
      | _ => none
    else if foldName k = foldName "timestamp" then
      match v with
      | .string s => decodeEntryMembers ms { e with Timestamp := s }
      | .null => decodeEntryMembers ms e
      | _ => none
    else if foldName k = foldName "isDelete" then
      match v with
      | .bool b => decodeEntryMembers ms { e with IsDelete := b }
      | .null => decodeEntryMembers ms e
      | _ => none
    else if foldName k = foldName "record" then
      match v with
      | .null => decodeEntryMembers ms { e with Record := none }
      | .object rs =>
        match decodeMembers rs (e.Record.getD PatientRecord.zero) with
        | some r => decodeEntryMembers ms { e with Record := some r }
        | none => none
      | _ => none
    else decodeEntryMembers ms e

/-- A JSON value decoded as a history entry. -/
def decodeEntry : json.Value → Option HistoryEntry
  | .null => some ⟨"", "", false, none⟩
  | .object ms => decodeEntryMembers ms ⟨"", "", false, none⟩
  | _ => none

/-- The values of a JSON array decoded as history entries. -/
def decodeEntries : List json.Value → Option (List HistoryEntry)
  | [] => some []
  | v :: vs =>
    match decodeEntry v, decodeEntries vs with
    | some e, some es => some (e :: es)
    | _, _ => none

/-- The entries a client reads from the payload of `GetRecordHistory`:
`null` is the empty list, an array is decoded entry by entry. -/
def decodeHistory (payload : String) : Option (List HistoryEntry) :=
  match json.parse payload with
  | some .null => some []
  | some (.array vs) => decodeEntries vs
  | _ => none

end Healthcare

namespace Healthcare

/-! ## Reachable ledgers, read-only invocations, and the query filter -/

/-- The record a loop iteration of `InitLedger` writes for a sample record:
the last-update fields are copied from the creation fields. -/
def stamp (record : PatientRecord) : PatientRecord :=
  { record with LastUpdatedBy := record.CreatedBy, LastUpdatedAt := record.CreatedAt }

/-- The writes of a successful `InitLedger`: every sample record, stamped and
marshalled, under its id. -/
def seedWrites (ctx : TransactionContext) : List (String × String) :=
  (seedRecords ctx).map fun record => (record.RecordID, marshalRecord (stamp record))

/-- The ledgers the contract can produce: the empty ledger, and the ledger
after any invocation of `InitLedger`, `CreateRecord` or `UpdateRecord`,
successful or failing, on such a ledger. -/
inductive Reachable : Ledger → Prop where
  | empty : Reachable Ledger.empty
  | init (l : Ledger) (p : Proposal) : Reachable l → Reachable (l.invoke p InitLedger).2
  | create (l : Ledger) (c : CreateCall) : Reachable l → Reachable (c.run l).2
  | update (l : Ledger) (u : UpdateCall) : Reachable l → Reachable (u.run l).2

/-- The outcome of an operation that only reads: its error, and no write,
since it makes no `PutState` call. -/
def readOnly {α : Type} (result : Except String α) : Outcome :=
  match result with
  | .ok _ => ⟨none, []⟩
  | .error err => ⟨some err, []⟩

/-- The record of `TestPatientRecordSerialization`. -/
def testRecord : PatientRecord :=
  { DocType := "patientRecord"
    RecordID := "PAT-TEST-001"
    PatientName := "Test Patient"
    DateOfBirth := "2000-01-01"
    Gender := "Male"
    BloodType := "B+"
    Diagnosis := "Common Cold"
    Treatment := "Rest and fluids"
    Allergies := "None"
    Medications := "Paracetamol"
    CreatedBy := "OHGHospitalOrgMSP"
    CreatedAt := "2025-01-01T00:00:00Z"
    LastUpdatedBy := ""
    LastUpdatedAt := ""
    Status := "active" }

/-- A text that can stand between the quotes of a JSON string as it is: no
double quote, no backslash and no character below U+0020. -/
def rawSafe (s : List Char) : Prop :=
  ∀ c ∈ s, c ≠ json.dquote ∧ c ≠ json.bslash ∧ 32 ≤ c.toNat

/-- Whether a text is safe between quotes can be computed. -/
instance rawSafeDecidable (s : List Char) : Decidable (rawSafe s) :=
  inferInstanceAs (Decidable (∀ c ∈ s, c ≠ json.dquote ∧ c ≠ json.bslash ∧ 32 ≤ c.toNat))

/-- The filter a query by diagnosis is meant to submit: a selector with the
two conditions `docType = "patientRecord"` and `diagnosis = d`. -/
def intendedFilter (diagnosis : String) : json.Value :=
  .object [("selector", .object [("docType", .string "patientRecord"),
    ("diagnosis", .string diagnosis)])]

end Healthcare

namespace Healthcare

namespace json

theorem char_eq_of_toNat {c : Char} {n : Nat} (h : c.toNat = n) : c = Char.ofNat n := by
  rw [← h, Char.ofNat_toNat]

theorem getu4_hex (n : Nat) (h : n < 128) :
    getu4 '0' '0' (hexDigit (n / 16)) (hexDigit (n % 16)) = some n := by
  revert n
  decide

theorem parseStringBody_escapeChar (c : Char) (n : Nat) (tail : List Char) :
    parseStringBody (n + 1) (escapeChar c ++ tail)
      = (parseStringBody n tail).map fun p => (c :: p.1, p.2) := by
  unfold escapeChar
  split_ifs with h1 h2 h3 h4 h5 h6 h7 h8 h9
  · rcases h1 with h | h <;> subst h <;> rfl
  · have := char_eq_of_toNat h2; subst this; rfl
  · have := char_eq_of_toNat h3; subst this; rfl
  · have := char_eq_of_toNat h4; subst this; rfl
  · have := char_eq_of_toNat h5; subst this; rfl
  · have := char_eq_of_toNat h6; subst this; rfl
  · have hlt : c.toNat < 128 := by
      rcases h7 with h | h | h | h
      · omega
      · subst h; decide
      · subst h; decide
      · subst h; decide
    have hb : bslash ≠ dquote := by decide
    have hns : ¬ (55296 ≤ c.toNat ∧ c.toNat < 57344) := by omega
    show parseStringBody (n + 1) (bslash :: 'u' :: '0' :: '0' :: hexDigit (c.toNat / 16)
      :: hexDigit (c.toNat % 16) :: tail) = _
    simp only [parseStringBody, hb, if_false, if_true, getu4_hex _ hlt, hns, Char.ofNat_toNat]
  · have := char_eq_of_toNat h8; subst this; rfl
  · have := char_eq_of_toNat h9; subst this; rfl
  · have hq : c ≠ dquote := fun h => h1 (Or.inl h)
    have hb : c ≠ bslash := fun h => h1 (Or.inr h)
    have hc : ¬ c.toNat < 32 := fun h => h7 (Or.inl h)
    show parseStringBody (n + 1) (c :: tail) = _
    simp only [parseStringBody, hq, hb, hc, if_false]

theorem parseStringBody_escape (s : List Char) (rest : List Char) :
    ∀ n, s.length < n →
      parseStringBody n (escape s ++ dquote :: rest) = some (s, rest) := by
  induction s with
  | nil =>
    intro n hn
    obtain ⟨m, rfl⟩ : ∃ m, n = m + 1 := ⟨n - 1, by simp at hn; omega⟩
    simp [escape, parseStringBody]
  | cons c cs ih =>
    intro n hn
    obtain ⟨m, rfl⟩ : ∃ m, n = m + 1 := ⟨n - 1, by simp at hn; omega⟩
    have hm : cs.length < m := by simpa using hn
    rw [escape, List.append_assoc, parseStringBody_escapeChar, ih m hm]
    rfl

end json

end Healthcare

namespace Healthcare

namespace json

theorem skipWs_cons {c : Char} (h : isSpace c = false) (cs : List Char) :
    skipWs (c :: cs) = c :: cs := by
  simp [skipWs, h]

theorem expect_append (w rest : List Char) : expect w (w ++ rest) = some rest := by
  induction w with
  | nil => cases rest <;> rfl
  | cons c cs ih => simp [expect, ih]

theorem escapeChar_length (c : Char) : 1 ≤ (escapeChar c).length := by
  unfold escapeChar
  split_ifs <;> simp

theorem escape_length (s : List Char) : s.length ≤ (escape s).length := by
  induction s with
  | nil => simp
  | cons c cs ih =>
    have := escapeChar_length c
    simp only [escape, List.length_append, List.length_cons]
    omega

theorem parseString_quote (s : String) (rest : List Char) :
    parseStringBody ((escape s.data ++ dquote :: rest).length + 1)
      (escape s.data ++ dquote :: rest) = some (s.data, rest) := by
  apply parseStringBody_escape
  have := escape_length s.data
  simp only [List.length_append, List.length_cons]
  omega

theorem parseValue_string (s : String) (rest : List Char) (n : Nat) :
    parseValue (n + 1) (quote s ++ rest) = some (Value.string s, rest) := by
  have hq : isSpace dquote = false := by decide
  have h := parseString_quote s rest
  show parseValue (n + 1) (dquote :: (escape s.data ++ [dquote] ++ rest)) = _
  rw [List.append_assoc, List.singleton_append, parseValue, skipWs_cons hq]
  simp only [if_true, h, Option.map_some']

theorem render_head (v : Value) (hp : plain v = true) :
    ∃ c t, render v = c :: t ∧ isSpace c = false ∧ c ≠ ']' ∧ c ≠ '}' ∧ c ≠ dquote ∨
      ∃ t, render v = dquote :: t := by
  cases v with
  | null => exact ⟨'n', _, Or.inl ⟨rfl, by decide, by decide, by decide, by decide⟩⟩
  | bool b =>
    cases b
    · exact ⟨'f', _, Or.inl ⟨rfl, by decide, by decide, by decide, by decide⟩⟩
    · exact ⟨'t', _, Or.inl ⟨rfl, by decide, by decide, by decide, by decide⟩⟩
  | number lit => simp [plain] at hp
  | string s => exact ⟨'x', [], Or.inr ⟨_, rfl⟩⟩
  | array xs => exact ⟨'[', _, Or.inl ⟨by rw [render], by decide, by decide, by decide, by decide⟩⟩
  | object ms => exact ⟨'{', _, Or.inl ⟨by rw [render], by decide, by decide, by decide, by decide⟩⟩

theorem render_head_ok (v : Value) (hp : plain v = true) :
    ∃ c t, render v = c :: t ∧ isSpace c = false ∧ c ≠ ']' ∧ c ≠ '}' := by
  obtain ⟨c, t, h | ⟨t2, h⟩⟩ := render_head v hp
  · exact ⟨c, t, h.1, h.2.1, h.2.2.1, h.2.2.2.1⟩
  · exact ⟨dquote, t2, h, by decide, by decide, by decide⟩

theorem parseValue_array_step (n : Nat) (c : Char) (t : List Char)
    (hs : isSpace c = false) (hne : c ≠ ']') :
    parseValue (n + 1) ('[' :: c :: t)
      = (parseElems n (c :: t)).map fun p => (Value.array p.1, p.2) := by
  have h1 : isSpace '[' = false := by decide
  have h2 : ('[' : Char) ≠ dquote := by decide
  rw [parseValue, skipWs_cons h1]
  simp only [h2, if_false, if_true, skipWs_cons hs, hne]

theorem parseValue_object_step (n : Nat) (c : Char) (t : List Char)
    (hs : isSpace c = false) (hne : c ≠ '}') :
    parseValue (n + 1) ('{' :: c :: t)
      = (parseMembers n (c :: t)).map fun p => (Value.object p.1, p.2) := by
  have h1 : isSpace '{' = false := by decide
  have h2 : ('{' : Char) ≠ dquote := by decide
  have h3 : ('{' : Char) ≠ '[' := by decide
  rw [parseValue, skipWs_cons h1]
  simp only [h2, h3, if_false, if_true, skipWs_cons hs, hne]

theorem parseElems_last (n : Nat) (cs rest : List Char) (v : Value)
    (h : parseValue n cs = some (v, ']' :: rest)) :
    parseElems (n + 1) cs = some ([v], rest) := by
  have h1 : isSpace ']' = false := by decide
  rw [parseElems, h]
  simp only [skipWs_cons h1, if_true]

theorem parseElems_more (n : Nat) (cs rest : List Char) (v : Value)
    (h : parseValue n cs = some (v, ',' :: rest)) :
    parseElems (n + 1) cs = (parseElems n rest).map fun p => (v :: p.1, p.2) := by
  have h1 : isSpace ',' = false := by decide
  have h2 : (',' : Char) ≠ ']' := by decide
  rw [parseElems, h]
  simp only [skipWs_cons h1, h2, if_false, if_true]

theorem parseMembers_last (n : Nat) (k : String) (body rest : List Char) (v : Value)
    (h : parseValue n body = some (v, '}' :: rest)) :
    parseMembers (n + 1) (quote k ++ ':' :: body) = some ([(k, v)], rest) := by
  have h1 : isSpace '}' = false := by decide
  have h2 : isSpace ':' = false := by decide
  have hq : isSpace dquote = false := by decide
  have hk := parseString_quote k (':' :: body)
  show parseMembers (n + 1) (dquote :: (escape k.data ++ [dquote] ++ ':' :: body)) = _
  rw [List.append_assoc, List.singleton_append, parseMembers, skipWs_cons hq]
  simp only [if_true, hk, skipWs_cons h2, h, skipWs_cons h1]

theorem parseMembers_more (n : Nat) (k : String) (body rest : List Char) (v : Value)
    (h : parseValue n body = some (v, ',' :: rest)) :
    parseMembers (n + 1) (quote k ++ ':' :: body)
      = (parseMembers n rest).map fun p => ((k, v) :: p.1, p.2) := by
  have h1 : isSpace ',' = false := by decide
  have h2 : isSpace ':' = false := by decide
  have h3 : (',' : Char) ≠ '}' := by decide
  have hq : isSpace dquote = false := by decide
  have hk := parseString_quote k (':' :: body)
  show parseMembers (n + 1) (dquote :: (escape k.data ++ [dquote] ++ ':' :: body)) = _
  rw [List.append_assoc, List.singleton_append, parseMembers, skipWs_cons hq]
  simp only [if_true, hk, skipWs_cons h2, h, skipWs_cons h1, h3, if_false]

mutual
theorem parseValue_render : ∀ (v : Value) (n : Nat) (rest : List Char),
    plain v = true → cost v ≤ n → parseValue n (render v ++ rest) = some (v, rest)
  | .null, n, rest, _, h => by
    obtain ⟨m, rfl⟩ : ∃ m, n = m + 1 := ⟨n - 1, by simp [cost] at h; omega⟩
    rfl
  | .bool true, n, rest, _, h => by
    obtain ⟨m, rfl⟩ : ∃ m, n = m + 1 := ⟨n - 1, by simp [cost] at h; omega⟩
    rfl
  | .bool false, n, rest, _, h => by
    obtain ⟨m, rfl⟩ : ∃ m, n = m + 1 := ⟨n - 1, by simp [cost] at h; omega⟩
    rfl
  | .number _, _, _, hp, _ => by simp [plain] at hp
  | .string s, n, rest, _, h => by
    obtain ⟨m, rfl⟩ : ∃ m, n = m + 1 := ⟨n - 1, by simp [cost] at h; omega⟩
    exact parseValue_string s rest m
  | .array [], n, rest, _, h => by
    obtain ⟨m, rfl⟩ : ∃ m, n = m + 1 := ⟨n - 1, by simp [cost] at h; omega⟩
    rfl
  | .array (x :: xs), n, rest, hp, h => by
    obtain ⟨m, rfl⟩ : ∃ m, n = m + 1 := ⟨n - 1, by simp [cost] at h; omega⟩
    have hp1 : plainElems (x :: xs) = true := by simpa [plain] using hp
    have hc : costElems (x :: xs) ≤ m := by simp only [cost] at h; omega
    have hx : plain x = true := by simp [plainElems] at hp1; exact hp1.1
    have ih := parseElems_render (x :: xs) m rest hp1 hc (by simp)
    obtain ⟨c, t, hr, hs, hne, _⟩ := render_head_ok x hx
    have e : render (.array (x :: xs)) ++ rest
        = '[' :: (render x ++ (renderElemsTail xs ++ ']' :: rest)) := by
      simp [render, renderElems]
    have e2 : renderElems (x :: xs) ++ ']' :: rest
        = render x ++ (renderElemsTail xs ++ ']' :: rest) := by
      simp [renderElems]
    rw [e2] at ih
    rw [e]
    rw [hr] at ih ⊢
    rw [List.cons_append] at ih ⊢
    rw [parseValue_array_step m c _ hs hne, ih]
    rfl
  | .object [], n, rest, _, h => by
    obtain ⟨m, rfl⟩ : ∃ m, n = m + 1 := ⟨n - 1, by simp [cost] at h; omega⟩
    rfl
  | .object ((k, v) :: ms), n, rest, hp, h => by
    obtain ⟨m, rfl⟩ : ∃ m, n = m + 1 := ⟨n - 1, by simp [cost] at h; omega⟩
    have hp1 : plainMembers ((k, v) :: ms) = true := by simpa [plain] using hp
    have hc : costMembers ((k, v) :: ms) ≤ m := by simp only [cost] at h; omega
    have ih := parseMembers_render ((k, v) :: ms) m rest hp1 hc (by simp)
    have hs : isSpace dquote = false := by decide
    have hne : dquote ≠ '}' := by decide
    have e : render (.object ((k, v) :: ms)) ++ rest
        = '{' :: (quote k ++ ':' :: (render v ++ (renderMembersTail ms ++ '}' :: rest))) := by
      simp [render, renderMembers]
    have e2 : renderMembers ((k, v) :: ms) ++ '}' :: rest
        = quote k ++ ':' :: (render v ++ (renderMembersTail ms ++ '}' :: rest)) := by
      simp [renderMembers]
    rw [e2] at ih
    rw [e]
    have eq : quote k ++ ':' :: (render v ++ (renderMembersTail ms ++ '}' :: rest))
        = dquote :: (escape k.data ++ [dquote]
            ++ ':' :: (render v ++ (renderMembersTail ms ++ '}' :: rest))) := rfl
    rw [eq] at ih ⊢
    rw [parseValue_object_step m dquote _ hs hne, ih]
    rfl
theorem parseElems_render : ∀ (l : List Value) (n : Nat) (rest : List Char),
    plainElems l = true → costElems l ≤ n → l ≠ [] →
    parseElems n (renderElems l ++ ']' :: rest) = some (l, rest)
  | [], _, _, _, _, hl => absurd rfl hl
  | [x], n, rest, hp, h, _ => by
    obtain ⟨m, rfl⟩ : ∃ m, n = m + 1 := ⟨n - 1, by simp [costElems] at h; omega⟩
    have hx : plain x = true := by simp [plainElems] at hp; exact hp
    have hc : cost x ≤ m := by simp only [costElems] at h; omega
    have ih := parseValue_render x m (']' :: rest) hx hc
    have e : renderElems [x] ++ ']' :: rest = render x ++ ']' :: rest := by
      simp [renderElems, renderElemsTail]
    rw [e]
    exact parseElems_last m _ rest x ih
  | x :: y :: ys, n, rest, hp, h, _ => by
    obtain ⟨m, rfl⟩ : ∃ m, n = m + 1 := ⟨n - 1, by simp [costElems] at h; omega⟩
    have hx : plain x = true := by simp [plainElems] at hp; exact hp.1
    have hys : plainElems (y :: ys) = true := by simp [plainElems] at hp ⊢; exact hp.2
    have hc : cost x ≤ m := by simp only [costElems] at h; omega
    have hc2 : costElems (y :: ys) ≤ m := by simp only [costElems] at h ⊢; omega
    have ih := parseValue_render x m
      (',' :: (renderElems (y :: ys) ++ ']' :: rest)) hx hc
    have ih2 := parseElems_render (y :: ys) m rest hys hc2 (by simp)
    have e : renderElems (x :: y :: ys) ++ ']' :: rest
        = render x ++ ',' :: (renderElems (y :: ys) ++ ']' :: rest) := by
      simp [renderElems, renderElemsTail]
    rw [e, parseElems_more m _ _ x ih, ih2]
    rfl
theorem parseMembers_render : ∀ (l : List (String × Value)) (n : Nat) (rest : List Char),
    plainMembers l = true → costMembers l ≤ n → l ≠ [] →
    parseMembers n (renderMembers l ++ '}' :: rest) = some (l, rest)
  | [], _, _, _, _, hl => absurd rfl hl
  | [(k, v)], n, rest, hp, h, _ => by
    obtain ⟨m, rfl⟩ : ∃ m, n = m + 1 := ⟨n - 1, by simp [costMembers] at h; omega⟩
    have hx : plain v = true := by simp [plainMembers] at hp; exact hp
    have hc : cost v ≤ m := by simp only [costMembers] at h; omega
    have ih := parseValue_render v m ('}' :: rest) hx hc
    have e : renderMembers [(k, v)] ++ '}' :: rest
        = quote k ++ ':' :: (render v ++ '}' :: rest) := by
      simp [renderMembers, renderMembersTail]
    rw [e]
    exact parseMembers_last m k _ rest v ih
  | (k, v) :: (k2, v2) :: ms, n, rest, hp, h, _ => by
    obtain ⟨m, rfl⟩ : ∃ m, n = m + 1 := ⟨n - 1, by simp [costMembers] at h; omega⟩
    have hx : plain v = true := by simp [plainMembers] at hp; exact hp.1
    have hys : plainMembers ((k2, v2) :: ms) = true := by
      simp [plainMembers] at hp ⊢; exact hp.2
    have hc : cost v ≤ m := by simp only [costMembers] at h; omega
    have hc2 : costMembers ((k2, v2) :: ms) ≤ m := by simp only [costMembers] at h ⊢; omega
    have ih := parseValue_render v m
      (',' :: (renderMembers ((k2, v2) :: ms) ++ '}' :: rest)) hx hc
    have ih2 := parseMembers_render ((k2, v2) :: ms) m rest hys hc2 (by simp)
    have e : renderMembers ((k, v) :: (k2, v2) :: ms) ++ '}' :: rest
        = quote k ++ ':' :: (render v ++ ',' :: (renderMembers ((k2, v2) :: ms)
            ++ '}' :: rest)) := by
      simp [renderMembers, renderMembersTail]
    rw [e, parseMembers_more m k _ _ v ih, ih2]
    rfl
end

mutual
theorem cost_le_length : ∀ (v : Value), plain v = true → cost v ≤ (render v).length
  | .null, _ => by simp [cost, render]
  | .bool true, _ => by simp [cost, render]
  | .bool false, _ => by simp [cost, render]
  | .number _, hp => by simp [plain] at hp
  | .string s, _ => by simp [cost, render, quote]
  | .array [], _ => by simp [cost, render, costElems, renderElems]
  | .array (x :: xs), hp => by
    have hp1 : plain x = true ∧ plainElems xs = true := by
      simpa [plain, plainElems] using hp
    have h1 := cost_le_length x hp1.1
    have h2 := costElems_le_length xs hp1.2
    simp only [cost, costElems, render, renderElems, List.length_cons, List.length_append,
      List.length_nil]
    omega
  | .object [], _ => by simp [cost, render, costMembers, renderMembers]
  | .object ((k, v) :: ms), hp => by
    have hp1 : plain v = true ∧ plainMembers ms = true := by
      simpa [plain, plainMembers] using hp
    have h1 := cost_le_length v hp1.1
    have h2 := costMembers_le_length ms hp1.2
    simp only [cost, costMembers, render, renderMembers, List.length_cons, List.length_append,
      List.length_nil]
    omega
theorem costElems_le_length : ∀ (l : List Value), plainElems l = true →
    costElems l ≤ (renderElemsTail l).length
  | [], _ => by simp [costElems]
  | x :: xs, hp => by
    have hp1 : plain x = true ∧ plainElems xs = true := by simpa [plainElems] using hp
    have h1 := cost_le_length x hp1.1
    have h2 := costElems_le_length xs hp1.2
    simp only [costElems, renderElemsTail, List.length_cons, List.length_append]
    omega
theorem costMembers_le_length : ∀ (l : List (String × Value)), plainMembers l = true →
    costMembers l ≤ (renderMembersTail l).length
  | [], _ => by simp [costMembers]
  | (k, v) :: ms, hp => by
    have hp1 : plain v = true ∧ plainMembers ms = true := by simpa [plainMembers] using hp
    have h1 := cost_le_length v hp1.1
    have h2 := costMembers_le_length ms hp1.2
    simp only [costMembers, renderMembersTail, List.length_cons, List.length_append]
    omega
end

/-- Reading back the compact text of a number-free value gives the value. -/
theorem parse_render (v : Value) (hp : plain v = true) :
    parse (String.mk (render v)) = some v := by
  have h := parseValue_render v ((render v).length + 1) [] hp
    (Nat.le_succ_of_le (cost_le_length v hp))
  rw [List.append_nil] at h
  show (match parseValue ((render v).length + 1) (render v) with
    | none => none
    | some (v, rest) => if skipWs rest = [] then some v else none) = some v
  rw [h]
  rfl

end json

end Healthcare

namespace Healthcare

theorem plain_toJSON (r : PatientRecord) : json.plain r.toJSON = true := by
  simp [PatientRecord.toJSON, json.plain, json.plainMembers]

theorem decodeRecord_toJSON (r : PatientRecord) : decodeRecord r.toJSON = some r := by
  cases r
  rfl

/-- Decoding the marshalled form of a record gives the record back. -/
theorem unmarshal_marshal (r : PatientRecord) : unmarshalRecord (marshalRecord r) = .ok r := by
  unfold unmarshalRecord marshalRecord
  rw [json.parse_render _ (plain_toJSON r)]
  simp only [decodeRecord_toJSON]

end Healthcare

namespace Healthcare

/-! ## The ledger -/

theorem lookupKey_putKey_same (k v : String) (s : List (String × String)) :
    lookupKey k (putKey k v s) = some v := by
  induction s with
  | nil => simp [putKey, lookupKey]
  | cons e rest ih =>
    obtain ⟨k1, v1⟩ := e
    unfold putKey
    split_ifs with h1 h2
    · simp [lookupKey]
    · simp [lookupKey]
    · simp [lookupKey, h1, ih]

theorem lookupKey_putKey_other (k v k2 : String) (s : List (String × String)) (h : k2 ≠ k) :
    lookupKey k2 (putKey k v s) = lookupKey k2 s := by
  induction s with
  | nil => simp [putKey, lookupKey, Ne.symm h]
  | cons e rest ih =>
    obtain ⟨k1, v1⟩ := e
    unfold putKey
    split_ifs with h1 h2
    · subst h1
      simp [lookupKey, Ne.symm h]
    · simp [lookupKey, Ne.symm h]
    · by_cases h3 : k1 = k2
      · simp [lookupKey, h3]
      · simp [lookupKey, h3, ih]

theorem commit_single (l : Ledger) (p : Proposal) (k v : String) :
    l.commit p [(k, v)]
      = ⟨putKey k v l.state, l.log ++ [(k, ⟨p.TxID, v, p.Timestamp, false⟩)]⟩ := by
  simp [Ledger.commit, lastWrites]

/-- What `CreateRecord` does on the stub of a ledger. -/
theorem CreateRecord_ledger (l : Ledger) (p : Proposal)
    (recordID patientName dateOfBirth gender bloodType diagnosis treatment allergies
      medications : String) :
    CreateRecord (l.context p) recordID patientName dateOfBirth gender bloodType diagnosis
        treatment allergies medications
      = match l.get recordID with
        | some _ => ⟨some ("patient record " ++ recordID ++ " already exists"), []⟩
        | none =>
          match p.Creator with
          | .error err => ⟨some ("failed to get client MSPID: " ++ err), []⟩
          | .ok mspID =>
            if recordID = "" then ⟨some "key must not be an empty string", []⟩
            else ⟨none, [(recordID, marshalRecord
              { DocType := "patientRecord"
                RecordID := recordID
                PatientName := patientName
                DateOfBirth := dateOfBirth
                Gender := gender
                BloodType := bloodType
                Diagnosis := diagnosis
                Treatment := treatment
                Allergies := allergies
                Medications := medications
                CreatedBy := mspID
                CreatedAt := formatRFC3339 (p.clock 0)
                LastUpdatedBy := mspID
                LastUpdatedAt := formatRFC3339 (p.clock 0)
                Status := "active" })]⟩ := by
  unfold CreateRecord
  simp only [Ledger.context, Ledger.stub]
  cases l.get recordID with
  | some b => rfl
  | none =>
    cases p.Creator with
    | error e => rfl
    | ok m =>
      by_cases hk : recordID = ""
      · simp [hk]
      · simp [hk]

/-- What `UpdateRecord` does on the stub of a ledger. -/
theorem UpdateRecord_ledger (l : Ledger) (p : Proposal)
    (recordID diagnosis treatment medications status : String) :
    UpdateRecord (l.context p) recordID diagnosis treatment medications status
      = match l.get recordID with
        | none => ⟨some ("patient record " ++ recordID ++ " does not exist"), []⟩
        | some recordJSON =>
          match unmarshalRecord recordJSON with
          | .error err => ⟨some ("failed to unmarshal record: " ++ err), []⟩
          | .ok r =>
            match p.Creator with
            | .error err => ⟨some ("failed to get client MSPID: " ++ err), []⟩
            | .ok mspID =>
              if recordID = "" then ⟨some "key must not be an empty string", []⟩
              else ⟨none, [(recordID, marshalRecord
                { r with
                  Diagnosis := if diagnosis ≠ "" then diagnosis else r.Diagnosis
                  Treatment := if treatment ≠ "" then treatment else r.Treatment
                  Medications := if medications ≠ "" then medications else r.Medications
                  Status := if status ≠ "" then status else r.Status
                  LastUpdatedBy := mspID
                  LastUpdatedAt := formatRFC3339 (p.clock 0) })]⟩ := by
  unfold UpdateRecord
  simp only [Ledger.context, Ledger.stub]
  cases l.get recordID with
  | none => rfl
  | some b =>
    simp only []
    cases unmarshalRecord b with
    | error e => rfl
    | ok r =>
      cases p.Creator with
      | error e => rfl
      | ok m =>
        simp only []
        by_cases hk : recordID = ""
        · simp [hk]
        · simp only [hk, if_false]
          by_cases h1 : diagnosis = "" <;> by_cases h2 : treatment = "" <;>
            by_cases h3 : medications = "" <;> by_cases h4 : status = "" <;>
            simp [h1, h2, h3, h4]

/-- What `ReadRecord` does on the stub of a ledger. -/
theorem ReadRecord_ledger (l : Ledger) (p : Proposal) (recordID : String) :
    ReadRecord (l.context p) recordID
      = match l.get recordID with
        | none => .error ("patient record " ++ recordID ++ " does not exist")
        | some recordJSON =>
          match unmarshalRecord recordJSON with
          | .error err => .error ("failed to unmarshal record: " ++ err)
          | .ok record => .ok record := by
  unfold ReadRecord
  simp only [Ledger.context, Ledger.stub]
  cases l.get recordID <;> rfl

end Healthcare

namespace Healthcare

/-! ## Create, read, update -/

theorem invoke_ok (l : Ledger) (p : Proposal) (op : TransactionContext → Outcome)
    (w : List (String × String)) (h : op (l.context p) = ⟨none, w⟩) :
    l.invoke p op = (none, l.commit p w) := by
  simp [Ledger.invoke, h]

theorem invoke_error (l : Ledger) (p : Proposal) (op : TransactionContext → Outcome)
    (e : String) (w : List (String × String)) (h : op (l.context p) = ⟨some e, w⟩) :
    l.invoke p op = (some e, l) := by
  simp [Ledger.invoke, h]

theorem get_commit_single (l : Ledger) (p : Proposal) (k v : String) :
    (l.commit p [(k, v)]).get k = some v := by
  rw [commit_single]
  exact lookupKey_putKey_same k v l.state

theorem get_commit_single_other (l : Ledger) (p : Proposal) (k v k2 : String) (h : k2 ≠ k) :
    (l.commit p [(k, v)]).get k2 = l.get k2 := by
  rw [commit_single]
  exact lookupKey_putKey_other k v k2 l.state h

/-- C1: on a ledger in which the key is absent, a successful `CreateRecord` by a
caller of MSP id `mspID` at clock reading `p.clock 0` is followed by a
`ReadRecord` of the same id that succeeds with the record holding the id, the
eight supplied fields, `docType = "patientRecord"`, `status = "active"`,
`createdBy = lastUpdatedBy = mspID` and `createdAt = lastUpdatedAt` the
formatted clock reading. -/
theorem create_then_read (l : Ledger) (p reader : Proposal)
    (recordID patientName dateOfBirth gender bloodType diagnosis treatment allergies
      medications mspID : String)
    (habsent : l.get recordID = none) (hcaller : p.Creator = .ok mspID)
    (hok : (l.invoke p fun ctx => CreateRecord ctx recordID patientName dateOfBirth gender
      bloodType diagnosis treatment allergies medications).1 = none) :
    ReadRecord ((l.invoke p fun ctx => CreateRecord ctx recordID patientName dateOfBirth gender
        bloodType diagnosis treatment allergies medications).2.context reader) recordID
      = .ok { DocType := "patientRecord"
              RecordID := recordID
              PatientName := patientName
              DateOfBirth := dateOfBirth
              Gender := gender
              BloodType := bloodType
              Diagnosis := diagnosis
              Treatment := treatment
              Allergies := allergies
              Medications := medications
              CreatedBy := mspID
              CreatedAt := formatRFC3339 (p.clock 0)
              LastUpdatedBy := mspID
              LastUpdatedAt := formatRFC3339 (p.clock 0)
              Status := "active" } := by
  have h := CreateRecord_ledger l p recordID patientName dateOfBirth gender bloodType diagnosis
    treatment allergies medications
  simp only [habsent, hcaller] at h
  by_cases hk : recordID = ""
  · rw [if_pos hk] at h
    rw [invoke_error l p _ _ _ h] at hok
    simp at hok
  · rw [if_neg hk] at h
    rw [invoke_ok l p _ _ h, ReadRecord_ledger, get_commit_single]
    simp only [unmarshal_marshal]

/-- The scenario of the specification: `PAT-100` created by `OrgA` on the empty
ledger reads back with status `active` and creator `OrgA`. -/
theorem create_then_read_witness :
    ReadRecord ((Ledger.empty.invoke ⟨"tx1", ⟨1735689600, 0⟩, .ok "OrgA", fun _ => 1735689600⟩
        fun ctx => CreateRecord ctx "PAT-100" "Jane Doe" "1992-01-01" "Female" "O-" "Flu" "Rest"
          "None" "Ibuprofen").2.context
            ⟨"tx2", ⟨1735689700, 0⟩, .ok "OrgB", fun _ => 1735689700⟩) "PAT-100"
      = .ok { DocType := "patientRecord"
              RecordID := "PAT-100"
              PatientName := "Jane Doe"
              DateOfBirth := "1992-01-01"
              Gender := "Female"
              BloodType := "O-"
              Diagnosis := "Flu"
              Treatment := "Rest"
              Allergies := "None"
              Medications := "Ibuprofen"
              CreatedBy := "OrgA"
              CreatedAt := formatRFC3339 1735689600
              LastUpdatedBy := "OrgA"
              LastUpdatedAt := formatRFC3339 1735689600
              Status := "active" } :=
  create_then_read Ledger.empty ⟨"tx1", ⟨1735689600, 0⟩, .ok "OrgA", fun _ => 1735689600⟩
    ⟨"tx2", ⟨1735689700, 0⟩, .ok "OrgB", fun _ => 1735689700⟩
    "PAT-100" "Jane Doe" "1992-01-01" "Female" "O-" "Flu" "Rest" "None" "Ibuprofen" "OrgA"
    rfl rfl rfl

/-- C2: on a ledger in which the key already holds a value, `CreateRecord` with
any arguments and any caller returns the already-exists error, takes no write,
and leaves the ledger as it was. -/
theorem create_existing_fails (l : Ledger) (p : Proposal)
    (recordID patientName dateOfBirth gender bloodType diagnosis treatment allergies
      medications existing : String)
    (hpresent : l.get recordID = some existing) :
    CreateRecord (l.context p) recordID patientName dateOfBirth gender bloodType diagnosis
        treatment allergies medications
      = ⟨some ("patient record " ++ recordID ++ " already exists"), []⟩
    ∧ l.invoke p (fun ctx => CreateRecord ctx recordID patientName dateOfBirth gender
        bloodType diagnosis treatment allergies medications)
      = (some ("patient record " ++ recordID ++ " already exists"), l) := by
  have h := CreateRecord_ledger l p recordID patientName dateOfBirth gender bloodType diagnosis
    treatment allergies medications
  simp only [hpresent] at h
  exact ⟨h, invoke_error l p _ _ _ h⟩

/-- C3: on a ledger in which the key is absent, `UpdateRecord` with any
arguments and any caller returns the not-found error, takes no write, and
leaves the ledger as it was. -/
theorem update_absent_fails (l : Ledger) (p : Proposal)
    (recordID diagnosis treatment medications status : String)
    (habsent : l.get recordID = none) :
    UpdateRecord (l.context p) recordID diagnosis treatment medications status
      = ⟨some ("patient record " ++ recordID ++ " does not exist"), []⟩
    ∧ l.invoke p (fun ctx => UpdateRecord ctx recordID diagnosis treatment medications status)
      = (some ("patient record " ++ recordID ++ " does not exist"), l) := by
  have h := UpdateRecord_ledger l p recordID diagnosis treatment medications status
  simp only [habsent] at h
  exact ⟨h, invoke_error l p _ _ _ h⟩

/-- The already-exists error on a ledger that holds `PAT-100`. -/
theorem create_existing_fails_witness :
    (⟨[("PAT-100", "x")], []⟩ : Ledger).get "PAT-100" = some "x"
    ∧ (⟨[("PAT-100", "x")], []⟩ : Ledger).invoke
        ⟨"tx2", ⟨1735689700, 0⟩, .ok "OrgB", fun _ => 1735689700⟩
        (fun ctx => CreateRecord ctx "PAT-100" "Jane Doe" "1992-01-01" "Female" "O-" "Flu" "Rest"
          "None" "Ibuprofen")
      = (some ("patient record " ++ "PAT-100" ++ " already exists"),
          (⟨[("PAT-100", "x")], []⟩ : Ledger)) :=
  ⟨rfl, (create_existing_fails ⟨[("PAT-100", "x")], []⟩
    ⟨"tx2", ⟨1735689700, 0⟩, .ok "OrgB", fun _ => 1735689700⟩
    "PAT-100" "Jane Doe" "1992-01-01" "Female" "O-" "Flu" "Rest" "None" "Ibuprofen" "x" rfl).2⟩

/-- The not-found error on the empty ledger. -/
theorem update_absent_fails_witness :
    Ledger.empty.get "PAT-100" = none
    ∧ Ledger.empty.invoke ⟨"tx2", ⟨1735689700, 0⟩, .ok "OrgB", fun _ => 1735689700⟩
        (fun ctx => UpdateRecord ctx "PAT-100" "" "" "" "discharged")
      = (some ("patient record " ++ "PAT-100" ++ " does not exist"), Ledger.empty) :=
  ⟨rfl, (update_absent_fails Ledger.empty
    ⟨"tx2", ⟨1735689700, 0⟩, .ok "OrgB", fun _ => 1735689700⟩
    "PAT-100" "" "" "" "discharged" rfl).2⟩

theorem update_succeeds (l : Ledger) (p : Proposal)
    (recordID diagnosis treatment medications status stored mspID : String) (r : PatientRecord)
    (hstored : l.get recordID = some stored) (hdecodes : unmarshalRecord stored = .ok r)
    (hcaller : p.Creator = .ok mspID) (hk : recordID ≠ "") :
    (l.invoke p fun ctx =>
      UpdateRecord ctx recordID diagnosis treatment medications status).1 = none := by
  have h := UpdateRecord_ledger l p recordID diagnosis treatment medications status
  simp only [hstored, hdecodes, hcaller, if_neg hk] at h
  rw [invoke_ok l p _ _ h]

theorem create_succeeds (l : Ledger) (p : Proposal)
    (recordID patientName dateOfBirth gender bloodType diagnosis treatment allergies
      medications mspID : String)
    (habsent : l.get recordID = none) (hcaller : p.Creator = .ok mspID) (hk : recordID ≠ "") :
    (l.invoke p fun ctx => CreateRecord ctx recordID patientName dateOfBirth gender
      bloodType diagnosis treatment allergies medications).1 = none := by
  have h := CreateRecord_ledger l p recordID patientName dateOfBirth gender bloodType diagnosis
    treatment allergies medications
  simp only [habsent, hcaller, if_neg hk] at h
  rw [invoke_ok l p _ _ h]

/-- C4: on a ledger that holds a value decoding to `r` under the key, a
successful `UpdateRecord` by a caller of MSP id `mspID` stores the record in
which each of diagnosis, treatment, medications and status is the argument
when the argument is not empty and the value of `r` when it is empty, and in
which `lastUpdatedBy = mspID` and `lastUpdatedAt` is the formatted clock
reading, whatever the arguments; every other field is that of `r`. The new
value is the marshalled record, and `ReadRecord` returns the record. -/
theorem update_sets_fields (l : Ledger) (p reader : Proposal)
    (recordID diagnosis treatment medications status stored mspID : String) (r : PatientRecord)
    (hstored : l.get recordID = some stored) (hdecodes : unmarshalRecord stored = .ok r)
    (hcaller : p.Creator = .ok mspID)
    (hok : (l.invoke p fun ctx =>
      UpdateRecord ctx recordID diagnosis treatment medications status).1 = none) :
    (l.invoke p fun ctx =>
        UpdateRecord ctx recordID diagnosis treatment medications status).2.get recordID
      = some (marshalRecord
          { r with
            Diagnosis := if diagnosis ≠ "" then diagnosis else r.Diagnosis
            Treatment := if treatment ≠ "" then treatment else r.Treatment
            Medications := if medications ≠ "" then medications else r.Medications
            Status := if status ≠ "" then status else r.Status
            LastUpdatedBy := mspID
            LastUpdatedAt := formatRFC3339 (p.clock 0) })
    ∧ ReadRecord ((l.invoke p fun ctx =>
        UpdateRecord ctx recordID diagnosis treatment medications status).2.context reader)
          recordID
      = .ok { r with
              Diagnosis := if diagnosis ≠ "" then diagnosis else r.Diagnosis
              Treatment := if treatment ≠ "" then treatment else r.Treatment
              Medications := if medications ≠ "" then medications else r.Medications
              Status := if status ≠ "" then status else r.Status
              LastUpdatedBy := mspID
              LastUpdatedAt := formatRFC3339 (p.clock 0) } := by
  have h := UpdateRecord_ledger l p recordID diagnosis treatment medications status
  simp only [hstored, hdecodes, hcaller] at h
  by_cases hk : recordID = ""
  · rw [if_pos hk] at h
    rw [invoke_error l p _ _ _ h] at hok
    simp at hok
  · rw [if_neg hk] at h
    rw [invoke_ok l p _ _ h, ReadRecord_ledger, get_commit_single]
    simp only [unmarshal_marshal, and_self]

/-- The scenario of the specification: `PAT-100` is created with diagnosis
`Flu` by `OrgA`, then updated with only the status `discharged` by `OrgB`; the
record read afterwards has diagnosis `Flu`, status `discharged`, last updater
`OrgB` and creator `OrgA`. -/
theorem update_sets_fields_witness :
    ReadRecord (((Ledger.empty.invoke
        ⟨"tx1", ⟨1735689600, 0⟩, .ok "OrgA", fun _ => 1735689600⟩
        fun ctx => CreateRecord ctx "PAT-100" "Jane Doe" "1992-01-01" "Female" "O-" "Flu" "Rest"
          "None" "Ibuprofen").2.invoke
        ⟨"tx2", ⟨1735689700, 0⟩, .ok "OrgB", fun _ => 1735689700⟩
        fun ctx => UpdateRecord ctx "PAT-100" "" "" "" "discharged").2.context
          ⟨"tx3", ⟨1735689800, 0⟩, .ok "OrgA", fun _ => 1735689800⟩) "PAT-100"
      = .ok { DocType := "patientRecord"
              RecordID := "PAT-100"
              PatientName := "Jane Doe"
              DateOfBirth := "1992-01-01"
              Gender := "Female"
              BloodType := "O-"
              Diagnosis := "Flu"
              Treatment := "Rest"
              Allergies := "None"
              Medications := "Ibuprofen"
              CreatedBy := "OrgA"
              CreatedAt := formatRFC3339 1735689600
              LastUpdatedBy := "OrgB"
              LastUpdatedAt := formatRFC3339 1735689700
              Status := "discharged" } :=
  (update_sets_fields
    (Ledger.empty.invoke ⟨"tx1", ⟨1735689600, 0⟩, .ok "OrgA", fun _ => 1735689600⟩
      fun ctx => CreateRecord ctx "PAT-100" "Jane Doe" "1992-01-01" "Female" "O-" "Flu" "Rest"
        "None" "Ibuprofen").2
    ⟨"tx2", ⟨1735689700, 0⟩, .ok "OrgB", fun _ => 1735689700⟩
    ⟨"tx3", ⟨1735689800, 0⟩, .ok "OrgA", fun _ => 1735689800⟩
    "PAT-100" "" "" "" "discharged"
    (marshalRecord { DocType := "patientRecord"
                     RecordID := "PAT-100"
                     PatientName := "Jane Doe"
                     DateOfBirth := "1992-01-01"
                     Gender := "Female"
                     BloodType := "O-"
                     Diagnosis := "Flu"
                     Treatment := "Rest"
                     Allergies := "None"
                     Medications := "Ibuprofen"
                     CreatedBy := "OrgA"
                     CreatedAt := formatRFC3339 1735689600
                     LastUpdatedBy := "OrgA"
                     LastUpdatedAt := formatRFC3339 1735689600
                     Status := "active" })
    "OrgB" _ rfl (unmarshal_marshal _) rfl
    (update_succeeds _ _ _ _ _ _ _ _ "OrgB" _ rfl (unmarshal_marshal _) rfl (by decide))).2

end Healthcare

namespace Healthcare

/-! ## Sequences of updates -/

/-- One `UpdateRecord` call, whatever its target and whether it succeeds,
keeps a decodable record under a key decodable and keeps every field that has
no update parameter. -/
theorem update_keeps_frame (l : Ledger) (u : UpdateCall) (k stored : String)
    (r : PatientRecord) (hstored : l.get k = some stored)
    (hdecodes : unmarshalRecord stored = .ok r) :
    ∃ stored2 r2, (u.run l).2.get k = some stored2 ∧ unmarshalRecord stored2 = .ok r2
      ∧ r2.CreatedBy = r.CreatedBy ∧ r2.CreatedAt = r.CreatedAt ∧ r2.RecordID = r.RecordID
      ∧ r2.PatientName = r.PatientName ∧ r2.DateOfBirth = r.DateOfBirth
      ∧ r2.Gender = r.Gender ∧ r2.BloodType = r.BloodType ∧ r2.Allergies = r.Allergies
      ∧ r2.DocType = r.DocType := by
  have keep : ∃ stored2 r2, l.get k = some stored2 ∧ unmarshalRecord stored2 = .ok r2
      ∧ r2.CreatedBy = r.CreatedBy ∧ r2.CreatedAt = r.CreatedAt ∧ r2.RecordID = r.RecordID
      ∧ r2.PatientName = r.PatientName ∧ r2.DateOfBirth = r.DateOfBirth
      ∧ r2.Gender = r.Gender ∧ r2.BloodType = r.BloodType ∧ r2.Allergies = r.Allergies
      ∧ r2.DocType = r.DocType :=
    ⟨stored, r, hstored, hdecodes, rfl, rfl, rfl, rfl, rfl, rfl, rfl, rfl, rfl⟩
  have h := UpdateRecord_ledger l u.proposal u.recordID u.diagnosis u.treatment u.medications
    u.status
  unfold UpdateCall.run
  cases hg : l.get u.recordID with
  | none =>
    simp only [hg] at h
    rw [invoke_error l _ _ _ _ h]
    exact keep
  | some b =>
    simp only [hg] at h
    cases hd : unmarshalRecord b with
    | error e =>
      simp only [hd] at h
      rw [invoke_error l _ _ _ _ h]
      exact keep
    | ok rb =>
      simp only [hd] at h
      cases hc : u.proposal.Creator with
      | error e =>
        simp only [hc] at h
        rw [invoke_error l _ _ _ _ h]
        exact keep
      | ok m =>
        simp only [hc] at h
        by_cases hk : u.recordID = ""
        · rw [if_pos hk] at h
          rw [invoke_error l _ _ _ _ h]
          exact keep
        · rw [if_neg hk] at h
          rw [invoke_ok l _ _ _ h]
          by_cases hkk : k = u.recordID
          · subst hkk
            rw [hstored] at hg
            cases hg
            rw [hdecodes] at hd
            cases hd
            exact ⟨_, _, get_commit_single _ _ _ _, unmarshal_marshal _,
              rfl, rfl, rfl, rfl, rfl, rfl, rfl, rfl, rfl⟩
          · rw [get_commit_single_other _ _ _ _ _ hkk]
            exact keep

theorem updateAll_keeps_frame (us : List UpdateCall) :
    ∀ (l : Ledger) (k stored : String) (r : PatientRecord), l.get k = some stored →
      unmarshalRecord stored = .ok r →
      ∃ stored2 r2, (updateAll l us).get k = some stored2 ∧ unmarshalRecord stored2 = .ok r2
        ∧ r2.CreatedBy = r.CreatedBy ∧ r2.CreatedAt = r.CreatedAt ∧ r2.RecordID = r.RecordID
        ∧ r2.PatientName = r.PatientName ∧ r2.DateOfBirth = r.DateOfBirth
        ∧ r2.Gender = r.Gender ∧ r2.BloodType = r.BloodType ∧ r2.Allergies = r.Allergies
        ∧ r2.DocType = r.DocType := by
  induction us with
  | nil =>
    intro l k stored r hs hd
    exact ⟨stored, r, hs, hd, rfl, rfl, rfl, rfl, rfl, rfl, rfl, rfl, rfl⟩
  | cons u us ih =>
    intro l k stored r hs hd
    obtain ⟨s1, r1, hs1, hd1, e1, e2, e3, e4, e5, e6, e7, e8, e9⟩ :=
      update_keeps_frame l u k stored r hs hd
    obtain ⟨s2, r2, hs2, hd2, f1, f2, f3, f4, f5, f6, f7, f8, f9⟩ :=
      ih (u.run l).2 k s1 r1 hs1 hd1
    exact ⟨s2, r2, hs2, hd2, f1.trans e1, f2.trans e2, f3.trans e3, f4.trans e4, f5.trans e5,
      f6.trans e6, f7.trans e7, f8.trans e8, f9.trans e9⟩

/-- C5: after a successful `CreateRecord` on a ledger in which the key is absent,
and then any finite sequence of `UpdateRecord` calls (any arguments, callers and
clock readings; in particular the successful calls on the id of the record),
`ReadRecord` returns a record whose `createdBy`, `createdAt`, `recordID`,
`patientName`, `dateOfBirth`, `gender`, `bloodType`, `allergies` and `docType`
are the values set at creation. -/
theorem updates_keep_creation_fields (l : Ledger) (c : CreateCall) (mspID : String)
    (us : List UpdateCall) (reader : Proposal)
    (habsent : l.get c.recordID = none) (hcaller : c.proposal.Creator = .ok mspID)
    (hok : (c.run l).1 = none) :
    ∃ r, ReadRecord ((updateAll (c.run l).2 us).context reader) c.recordID = .ok r
      ∧ r.CreatedBy = mspID ∧ r.CreatedAt = formatRFC3339 (c.proposal.clock 0)
      ∧ r.RecordID = c.recordID ∧ r.PatientName = c.patientName
      ∧ r.DateOfBirth = c.dateOfBirth ∧ r.Gender = c.gender ∧ r.BloodType = c.bloodType
      ∧ r.Allergies = c.allergies ∧ r.DocType = "patientRecord" := by
  have h := CreateRecord_ledger l c.proposal c.recordID c.patientName c.dateOfBirth c.gender
    c.bloodType c.diagnosis c.treatment c.allergies c.medications
  simp only [habsent, hcaller] at h
  unfold CreateCall.run at hok ⊢
  by_cases hk : c.recordID = ""
  · rw [if_pos hk] at h
    rw [invoke_error l _ _ _ _ h] at hok
    simp at hok
  · rw [if_neg hk] at h
    change _ = (⟨none, [(c.recordID, marshalRecord (c.record mspID))]⟩ : Outcome) at h
    rw [invoke_ok l _ _ _ h]
    obtain ⟨s2, r2, hs2, hd2, f1, f2, f3, f4, f5, f6, f7, f8, f9⟩ :=
      updateAll_keeps_frame us (l.commit c.proposal [(c.recordID, marshalRecord (c.record mspID))])
        c.recordID (marshalRecord (c.record mspID)) (c.record mspID)
        (get_commit_single l c.proposal _ _) (unmarshal_marshal _)
    have hr : ReadRecord ((updateAll (l.commit c.proposal
        [(c.recordID, marshalRecord (c.record mspID))]) us).context reader) c.recordID
        = .ok r2 := by
      rw [ReadRecord_ledger, hs2]
      simp only [hd2]
    exact ⟨r2, hr, f1, f2, f3, f4, f5, f6, f7, f8, f9⟩

/-- The record `PAT-100` of the scenario keeps its creator through an update by
`OrgB` and a second update of its diagnosis. -/
theorem updates_keep_creation_fields_witness :
    ∃ r, ReadRecord ((updateAll
        (CreateCall.run ⟨⟨"tx1", ⟨1735689600, 0⟩, .ok "OrgA", fun _ => 1735689600⟩,
          "PAT-100", "Jane Doe", "1992-01-01", "Female", "O-", "Flu", "Rest", "None",
          "Ibuprofen"⟩ Ledger.empty).2
        [⟨⟨"tx2", ⟨1735689700, 0⟩, .ok "OrgB", fun _ => 1735689700⟩,
            "PAT-100", "", "", "", "discharged"⟩,
         ⟨⟨"tx3", ⟨1735689800, 0⟩, .ok "OrgC", fun _ => 1735689800⟩,
            "PAT-100", "Cold", "", "", ""⟩]).context
          ⟨"tx4", ⟨1735689900, 0⟩, .ok "OrgA", fun _ => 1735689900⟩) "PAT-100" = .ok r
      ∧ r.CreatedBy = "OrgA" ∧ r.CreatedAt = formatRFC3339 1735689600
      ∧ r.RecordID = "PAT-100" ∧ r.PatientName = "Jane Doe"
      ∧ r.DateOfBirth = "1992-01-01" ∧ r.Gender = "Female" ∧ r.BloodType = "O-"
      ∧ r.Allergies = "None" ∧ r.DocType = "patientRecord" :=
  updates_keep_creation_fields Ledger.empty
    ⟨⟨"tx1", ⟨1735689600, 0⟩, .ok "OrgA", fun _ => 1735689600⟩,
      "PAT-100", "Jane Doe", "1992-01-01", "Female", "O-", "Flu", "Rest", "None", "Ibuprofen"⟩
    "OrgA"
    [⟨⟨"tx2", ⟨1735689700, 0⟩, .ok "OrgB", fun _ => 1735689700⟩,
        "PAT-100", "", "", "", "discharged"⟩,
     ⟨⟨"tx3", ⟨1735689800, 0⟩, .ok "OrgC", fun _ => 1735689800⟩,
        "PAT-100", "Cold", "", "", ""⟩]
    ⟨"tx4", ⟨1735689900, 0⟩, .ok "OrgA", fun _ => 1735689900⟩ rfl rfl
    (create_succeeds Ledger.empty _ "PAT-100" _ _ _ _ _ _ _ _ "OrgA" rfl rfl (by decide))

/-! ## Reading -/

theorem unmarshal_message_ne_not_found (e recordID : String) :
    "failed to unmarshal record: " ++ e ≠ "patient record " ++ recordID ++ " does not exist" := by
  intro h
  have h2 := congrArg (fun s => s.data.head?) h
  simp only [String.data_append] at h2
  have h3 : some 'f' = some 'p' := h2
  exact absurd h3 (by decide)

/-- C6: on every ledger and for every id, `ReadRecord` returns the not-found
error exactly when the key is absent; when the key holds a value it returns a
deserialization error exactly when the value does not decode as a
`PatientRecord`, with the message of the decoder; and when the value decodes it
returns the decoded record. -/
theorem read_record_cases (l : Ledger) (p : Proposal) (recordID : String) :
    (ReadRecord (l.context p) recordID
        = .error ("patient record " ++ recordID ++ " does not exist")
      ↔ l.get recordID = none)
    ∧ ∀ stored, l.get recordID = some stored →
        ((∃ e, ReadRecord (l.context p) recordID = .error ("failed to unmarshal record: " ++ e))
          ↔ ∃ e, unmarshalRecord stored = .error e)
        ∧ (∀ e, unmarshalRecord stored = .error e →
            ReadRecord (l.context p) recordID = .error ("failed to unmarshal record: " ++ e))
        ∧ (∀ r, unmarshalRecord stored = .ok r → ReadRecord (l.context p) recordID = .ok r) := by
  refine ⟨?_, ?_⟩
  · cases hg : l.get recordID with
    | none => simp [ReadRecord_ledger, hg]
    | some b =>
      cases hd : unmarshalRecord b with
      | error e =>
        simp only [ReadRecord_ledger, hg, hd, reduceCtorEq, iff_false]
        intro h
        injection h with h
        exact unmarshal_message_ne_not_found e recordID h
      | ok r => simp [ReadRecord_ledger, hg, hd]
  · intro stored hs
    cases hd : unmarshalRecord stored with
    | error e =>
      have hr : ReadRecord (l.context p) recordID
          = .error ("failed to unmarshal record: " ++ e) := by
        simp only [ReadRecord_ledger, hs, hd]
      refine ⟨⟨fun _ => ⟨e, rfl⟩, fun _ => ⟨e, hr⟩⟩, ?_, ?_⟩
      · intro e2 he
        cases he
        exact hr
      · intro r hr2
        cases hr2
    | ok r =>
      have hr : ReadRecord (l.context p) recordID = .ok r := by
        simp only [ReadRecord_ledger, hs, hd]
      refine ⟨⟨?_, ?_⟩, ?_, ?_⟩
      · rintro ⟨e, he⟩
        rw [hr] at he
        cases he
      · rintro ⟨e, he⟩
        cases he
      · intro e he
        cases he
      · intro r2 hr2
        cases hr2
        exact hr

end Healthcare

namespace Healthcare

/-! ## Enumeration -/

theorem lookupKey_none (k : String) (s : List (String × String)) (h : lookupKey k s = none) :
    ∀ e ∈ s, e.1 ≠ k := by
  induction s with
  | nil => simp
  | cons a rest ih =>
    obtain ⟨k1, v1⟩ := a
    unfold lookupKey at h
    split_ifs at h with h1
    intro e he
    rcases List.mem_cons.mp he with rfl | he
    · exact h1
    · exact ih h e he

theorem mem_putKey (k v : String) (s : List (String × String)) (e : String × String)
    (he : e ∈ putKey k v s) : e = (k, v) ∨ e ∈ s := by
  induction s with
  | nil =>
    simp only [putKey, List.mem_singleton] at he
    exact Or.inl he
  | cons a rest ih =>
    obtain ⟨k1, v1⟩ := a
    unfold putKey at he
    split_ifs at he with h1 h2
    · rcases List.mem_cons.mp he with h | h
      · exact Or.inl h
      · exact Or.inr (List.mem_cons_of_mem _ h)
    · rcases List.mem_cons.mp he with h | h
      · exact Or.inl h
      · exact Or.inr h
    · rcases List.mem_cons.mp he with h | h
      · exact Or.inr (h ▸ List.mem_cons_self _ _)
      · rcases ih h with h | h
        · exact Or.inl h
        · exact Or.inr (List.mem_cons_of_mem _ h)

theorem putKey_mem_self (k v : String) (s : List (String × String)) : (k, v) ∈ putKey k v s := by
  induction s with
  | nil => simp [putKey]
  | cons a rest ih =>
    obtain ⟨k1, v1⟩ := a
    unfold putKey
    split_ifs with h1 h2
    · exact List.mem_cons_self _ _
    · exact List.mem_cons_self _ _
    · exact List.mem_cons_of_mem _ ih

theorem putKey_mem_old (k v : String) (s : List (String × String)) (e : String × String)
    (he : e ∈ s) (hne : e.1 ≠ k) : e ∈ putKey k v s := by
  induction s with
  | nil => cases he
  | cons a rest ih =>
    obtain ⟨k1, v1⟩ := a
    unfold putKey
    split_ifs with h1 h2
    · rcases List.mem_cons.mp he with h | h
      · subst h
        exact absurd h1 hne
      · exact List.mem_cons_of_mem _ h
    · exact List.mem_cons_of_mem _ he
    · rcases List.mem_cons.mp he with h | h
      · subst h
        exact List.mem_cons_self _ _
      · exact List.mem_cons_of_mem _ (ih h)

theorem putKey_length (k v : String) (s : List (String × String)) (h : ∀ e ∈ s, e.1 ≠ k) :
    (putKey k v s).length = s.length + 1 := by
  induction s with
  | nil => simp [putKey]
  | cons a rest ih =>
    obtain ⟨k1, v1⟩ := a
    have h1 : k1 ≠ k := h (k1, v1) (List.mem_cons_self _ _)
    unfold putKey
    rw [if_neg h1]
    split_ifs with h2
    · simp
    · simp [ih fun e he => h e (List.mem_cons_of_mem _ he)]

theorem putKey_pairwise (k v : String) (s : List (String × String))
    (h : List.Pairwise (fun a b : String × String => a.1.data < b.1.data) s) :
    List.Pairwise (fun a b : String × String => a.1.data < b.1.data) (putKey k v s) := by
  induction s with
  | nil => simp [putKey]
  | cons a rest ih =>
    obtain ⟨k1, v1⟩ := a
    rw [List.pairwise_cons] at h
    unfold putKey
    split_ifs with h1 h2
    · subst h1
      exact List.pairwise_cons.mpr ⟨h.1, h.2⟩
    · refine List.pairwise_cons.mpr ⟨?_, List.pairwise_cons.mpr h⟩
      intro e he
      rcases List.mem_cons.mp he with rfl | he
      · exact h2
      · exact lt_trans h2 (h.1 e he)
    · have hlt : k1.data < k.data := by
        have hne : k1.data ≠ k.data := fun hd => h1 (String.ext hd)
        rcases lt_or_gt_of_ne hne with hl | hl
        · exact hl
        · exact absurd hl h2
      refine List.pairwise_cons.mpr ⟨?_, ih h.2⟩
      intro e he
      rcases mem_putKey k v rest e he with rfl | he
      · exact hlt
      · exact h.1 e he

theorem lookupKey_of_mem (k v : String) (s : List (String × String))
    (h : List.Pairwise (fun a b : String × String => a.1.data < b.1.data) s)
    (hm : (k, v) ∈ s) : lookupKey k s = some v := by
  induction s with
  | nil => cases hm
  | cons a rest ih =>
    obtain ⟨k1, v1⟩ := a
    rw [List.pairwise_cons] at h
    unfold lookupKey
    rcases List.mem_cons.mp hm with heq | hm
    · cases heq
      simp
    · have hlt := h.1 (k, v) hm
      have hne : k1 ≠ k := by
        intro hk
        subst hk
        exact lt_irrefl _ hlt
      rw [if_neg hne]
      exact ih h.2 hm

theorem collectRecords_ok (dec : String × String → PatientRecord) (s : List (String × String)) :
    ∀ acc, (∀ e ∈ s, unmarshalRecord e.2 = .ok (dec e)) →
      collectRecords (s.map fun e => .ok ⟨e.1, e.2⟩) acc = .ok (acc ++ s.map dec) := by
  induction s with
  | nil => intro acc _; simp [collectRecords]
  | cons a rest ih =>
    intro acc h
    have ha := h a (List.mem_cons_self _ _)
    simp only [List.map_cons, collectRecords, ha]
    rw [ih _ fun e he => h e (List.mem_cons_of_mem _ he)]
    simp

theorem filter_inRange_all (s : List (String × String)) :
    (s.filter fun e => inRange "" "" e.1) = s := by
  apply List.filter_eq_self.mpr
  intro e _
  simp [inRange]

theorem create_run_success (l : Ledger) (c : CreateCall) (hok : (c.run l).1 = none) :
    ∃ m, c.proposal.Creator = .ok m ∧ l.get c.recordID = none
      ∧ (c.run l).2 = l.commit c.proposal [(c.recordID, marshalRecord (c.record m))] := by
  have h := CreateRecord_ledger l c.proposal c.recordID c.patientName c.dateOfBirth c.gender
    c.bloodType c.diagnosis c.treatment c.allergies c.medications
  unfold CreateCall.run at hok ⊢
  cases hg : l.get c.recordID with
  | some b =>
    simp only [hg] at h
    rw [invoke_error l _ _ _ _ h] at hok
    simp at hok
  | none =>
    simp only [hg] at h
    cases hc : c.proposal.Creator with
    | error e =>
      simp only [hc] at h
      rw [invoke_error l _ _ _ _ h] at hok
      simp at hok
    | ok m =>
      simp only [hc] at h
      by_cases hk : c.recordID = ""
      · rw [if_pos hk] at h
        rw [invoke_error l _ _ _ _ h] at hok
        simp at hok
      · rw [if_neg hk] at h
        change _ = (⟨none, [(c.recordID, marshalRecord (c.record m))]⟩ : Outcome) at h
        exact ⟨m, rfl, rfl, by rw [invoke_ok l _ _ _ h]⟩

theorem holdsCreated_step (l : Ledger) (done : List CreateCall) (c : CreateCall)
    (hg : HoldsCreated l done) (hok : (c.run l).1 = none) :
    HoldsCreated (c.run l).2 (done ++ [c]) := by
  obtain ⟨m, hc, habs, hrun⟩ := create_run_success l c hok
  obtain ⟨hsorted, hlen, hentries, hcalls⟩ := hg
  have hne := lookupKey_none c.recordID l.state habs
  rw [hrun, commit_single]
  refine ⟨putKey_pairwise _ _ _ hsorted, ?_, ?_, ?_⟩
  · show (putKey _ _ l.state).length = _
    rw [putKey_length _ _ _ hne, hlen]
    simp
  · intro e he
    rcases mem_putKey _ _ _ e he with rfl | he
    · exact ⟨c, by simp, m, hc, rfl⟩
    · obtain ⟨c2, hc2, m2, hm2, rfl⟩ := hentries e he
      exact ⟨c2, List.mem_append_left _ hc2, m2, hm2, rfl⟩
  · intro c2 hc2
    rcases List.mem_append.mp hc2 with h | h
    · obtain ⟨m2, hm2, hmem⟩ := hcalls c2 h
      exact ⟨m2, hm2, putKey_mem_old _ _ _ _ hmem (hne _ hmem)⟩
    · rw [List.mem_singleton] at h
      subst h
      exact ⟨m, hc, putKey_mem_self _ _ _⟩

theorem holdsCreated_run (cs : List CreateCall) :
    ∀ (l : Ledger) (done : List CreateCall) (l2 : Ledger), HoldsCreated l done →
      createAll l cs = some l2 → HoldsCreated l2 (done ++ cs) := by
  induction cs with
  | nil =>
    intro l done l2 hg h
    simp only [createAll, Option.some.injEq] at h
    subst h
    simpa using hg
  | cons c cs ih =>
    intro l done l2 hg h
    unfold createAll at h
    cases hok : (c.run l).1 with
    | some e => simp [hok] at h
    | none =>
      simp only [hok] at h
      have := ih (c.run l).2 (done ++ [c]) l2 (holdsCreated_step l done c hg hok) h
      simpa using this

theorem holdsCreated_empty : HoldsCreated Ledger.empty [] := by
  simp [HoldsCreated, Ledger.empty]

/-- The records `GetAllRecords` returns on a ledger that holds the records of a
list of calls. -/
theorem get_all_of_holdsCreated (l : Ledger) (calls : List CreateCall) (reader : Proposal)
    (hg : HoldsCreated l calls) :
    ∃ records, GetAllRecords (l.context reader) = .ok records
      ∧ records.length = calls.length
      ∧ List.Pairwise (fun a b : PatientRecord => a.RecordID.data < b.RecordID.data) records
      ∧ (∀ c ∈ calls, ∃ m, c.proposal.Creator = .ok m ∧ c.record m ∈ records)
      ∧ (∀ r ∈ records, l.get r.RecordID = some (marshalRecord r)) := by
  obtain ⟨hsorted, hlen, hentries, hcalls⟩ := hg
  let dec : String × String → PatientRecord := fun e =>
    match unmarshalRecord e.2 with
    | .ok r => r
    | .error _ => PatientRecord.zero
  have hdec : ∀ (c : CreateCall) (m : String),
      dec (c.recordID, marshalRecord (c.record m)) = c.record m := by
    intro c m
    show (match unmarshalRecord (marshalRecord (c.record m)) with
      | .ok r => r
      | .error _ => PatientRecord.zero) = _
    rw [unmarshal_marshal]
  have hall : ∀ e ∈ l.state, unmarshalRecord e.2 = .ok (dec e) := by
    intro e he
    obtain ⟨c, _, m, _, rfl⟩ := hentries e he
    rw [hdec]
    exact unmarshal_marshal _
  refine ⟨l.state.map dec, ?_, ?_, ?_, ?_, ?_⟩
  · unfold GetAllRecords
    simp only [Ledger.context, Ledger.stub, filter_inRange_all]
    rw [collectRecords_ok dec l.state [] hall]
    rfl
  · rw [List.length_map, hlen]
  · rw [List.pairwise_map]
    refine List.Pairwise.imp_of_mem ?_ hsorted
    intro a b ha hb hab
    obtain ⟨c1, _, m1, _, rfl⟩ := hentries a ha
    obtain ⟨c2, _, m2, _, rfl⟩ := hentries b hb
    rw [hdec, hdec]
    exact hab
  · intro c hc
    obtain ⟨m, hm, hmem⟩ := hcalls c hc
    refine ⟨m, hm, ?_⟩
    rw [← hdec c m]
    exact List.mem_map_of_mem dec hmem
  · intro r hr
    obtain ⟨e, he, rfl⟩ := List.mem_map.mp hr
    obtain ⟨c, _, m, _, rfl⟩ := hentries e he
    rw [hdec]
    exact lookupKey_of_mem _ _ _ hsorted he

/-- C7: starting from the empty ledger, after a list of `CreateRecord` calls
that all succeed (their ids are then pairwise distinct), `GetAllRecords`
succeeds and returns as many records as there were calls, in strictly
ascending order of id, each being the record stored under its id, and the
record every call wrote is among them. -/
theorem get_all_after_creates (calls : List CreateCall) (l : Ledger) (reader : Proposal)
    (hcreated : createAll Ledger.empty calls = some l) :
    ∃ records, GetAllRecords (l.context reader) = .ok records
      ∧ records.length = calls.length
      ∧ List.Pairwise (fun a b : PatientRecord => a.RecordID.data < b.RecordID.data) records
      ∧ (∀ c ∈ calls, ∃ m, c.proposal.Creator = .ok m ∧ c.record m ∈ records)
      ∧ (∀ r ∈ records, l.get r.RecordID = some (marshalRecord r)) := by
  have h := holdsCreated_run calls Ledger.empty [] l holdsCreated_empty hcreated
  rw [List.nil_append] at h
  exact get_all_of_holdsCreated l calls reader h

theorem createAll_cons (l : Ledger) (c : CreateCall) (cs : List CreateCall)
    (hok : (c.run l).1 = none) : createAll l (c :: cs) = createAll (c.run l).2 cs := by
  simp [createAll, hok]

theorem run_succeeds (l : Ledger) (c : CreateCall) (m : String)
    (habsent : l.get c.recordID = none) (hcaller : c.proposal.Creator = .ok m)
    (hk : c.recordID ≠ "") : (c.run l).1 = none :=
  create_succeeds l c.proposal c.recordID c.patientName c.dateOfBirth c.gender c.bloodType
    c.diagnosis c.treatment c.allergies c.medications m habsent hcaller hk

/-- Two records created on the empty ledger, `PAT-002` before `PAT-001`, are
both returned by `GetAllRecords`. -/
theorem get_all_after_creates_witness :
    ∃ records, GetAllRecords ((CreateCall.run
        ⟨⟨"tx2", ⟨1735689700, 0⟩, .ok "OrgB", fun _ => 1735689700⟩,
          "PAT-001", "Ahmad Khan", "1985-03-15", "Male", "O+", "Cold", "Rest", "None", "None"⟩
        (CreateCall.run
          ⟨⟨"tx1", ⟨1735689600, 0⟩, .ok "OrgA", fun _ => 1735689600⟩,
            "PAT-002", "Fatima Ali", "1990-07-22", "Female", "A+", "Flu", "Rest", "None", "None"⟩
          Ledger.empty).2).2.context
          ⟨"tx3", ⟨1735689800, 0⟩, .ok "OrgA", fun _ => 1735689800⟩) = .ok records
      ∧ records.length = 2 := by
  have h1 : (CreateCall.run
      ⟨⟨"tx1", ⟨1735689600, 0⟩, .ok "OrgA", fun _ => 1735689600⟩,
        "PAT-002", "Fatima Ali", "1990-07-22", "Female", "A+", "Flu", "Rest", "None", "None"⟩
      Ledger.empty).1 = none :=
    run_succeeds Ledger.empty _ "OrgA" rfl rfl (by decide)
  have h2 : (CreateCall.run
      ⟨⟨"tx2", ⟨1735689700, 0⟩, .ok "OrgB", fun _ => 1735689700⟩,
        "PAT-001", "Ahmad Khan", "1985-03-15", "Male", "O+", "Cold", "Rest", "None", "None"⟩
      (CreateCall.run
        ⟨⟨"tx1", ⟨1735689600, 0⟩, .ok "OrgA", fun _ => 1735689600⟩,
          "PAT-002", "Fatima Ali", "1990-07-22", "Female", "A+", "Flu", "Rest", "None", "None"⟩
        Ledger.empty).2).1 = none :=
    run_succeeds _ _ "OrgB" rfl rfl (by decide)
  obtain ⟨records, h3, h4, _⟩ := get_all_after_creates
    [⟨⟨"tx1", ⟨1735689600, 0⟩, .ok "OrgA", fun _ => 1735689600⟩,
        "PAT-002", "Fatima Ali", "1990-07-22", "Female", "A+", "Flu", "Rest", "None", "None"⟩,
     ⟨⟨"tx2", ⟨1735689700, 0⟩, .ok "OrgB", fun _ => 1735689700⟩,
        "PAT-001", "Ahmad Khan", "1985-03-15", "Male", "O+", "Cold", "Rest", "None", "None"⟩]
    _ ⟨"tx3", ⟨1735689800, 0⟩, .ok "OrgA", fun _ => 1735689800⟩
    ((createAll_cons _ _ _ h1).trans ((createAll_cons _ _ _ h2).trans rfl))
  exact ⟨records, h3, h4⟩

end Healthcare

namespace Healthcare

/-! ## History -/

theorem collectHistory_ok (mods : List KeyModification) :
    ∀ acc, collectHistory (mods.map .ok) acc = .ok (acc ++ mods.map historyEntry) := by
  induction mods with
  | nil => intro acc; simp [collectHistory]
  | cons m rest ih =>
    intro acc
    simp only [List.map_cons, collectHistory]
    rw [ih]
    simp

theorem getRecordHistory_of_mods (ctx : TransactionContext) (recordID : String)
    (mods : List KeyModification)
    (h : ctx.GetStub.GetHistoryForKey recordID = .ok (mods.map .ok)) :
    GetRecordHistory ctx recordID = .ok (marshalHistory (mods.map historyEntry)) := by
  unfold GetRecordHistory
  rw [h]
  simp only [collectHistory_ok, List.nil_append]

theorem decodeEntry_toJSON (e : HistoryEntry) : decodeEntry e.toJSON = some e := by
  obtain ⟨tx, ts, del, rec⟩ := e
  cases rec with
  | none => rfl
  | some r =>
    cases r
    rfl

theorem decodeEntries_toJSON (h : List HistoryEntry) :
    decodeEntries (h.map HistoryEntry.toJSON) = some h := by
  induction h with
  | nil => rfl
  | cons e es ih => simp only [List.map_cons, decodeEntries, decodeEntry_toJSON, ih]

theorem plain_entry (e : HistoryEntry) : json.plain e.toJSON = true := by
  obtain ⟨tx, ts, del, rec⟩ := e
  cases rec with
  | none => simp [HistoryEntry.toJSON, json.plain, json.plainMembers]
  | some r =>
    simp [HistoryEntry.toJSON, PatientRecord.toJSON, json.plain, json.plainMembers]

theorem plain_entries (h : List HistoryEntry) :
    json.plainElems (h.map HistoryEntry.toJSON) = true := by
  induction h with
  | nil => rfl
  | cons e es ih => simp [json.plainElems, plain_entry, ih]

/-- Reading the payload of a history back gives the history. -/
theorem decodeHistory_marshalHistory (h : List HistoryEntry) :
    decodeHistory (marshalHistory h) = some h := by
  cases h with
  | nil => rfl
  | cons e es =>
    unfold decodeHistory marshalHistory
    rw [json.parse_render _ (by simpa [json.plain] using plain_entries (e :: es))]
    exact decodeEntries_toJSON (e :: es)

theorem history_commit_single (l : Ledger) (p : Proposal) (k v : String) :
    (l.commit p [(k, v)]).history k = l.history k ++ [⟨p.TxID, v, p.Timestamp, false⟩] := by
  rw [commit_single]
  simp [Ledger.history, List.filterMap_append]

theorem historyEntry_marshalled (tx : String) (r : PatientRecord) (ts : Timestamp) :
    historyEntry ⟨tx, marshalRecord r, ts, false⟩
      = ⟨tx, formatRFC3339 (timeUnix ts.Seconds ts.Nanos), false, some r⟩ := by
  simp [historyEntry, unmarshal_marshal]

theorem update_run_success (l : Ledger) (u : UpdateCall) (hok : (u.run l).1 = none) :
    ∃ stored r m, l.get u.recordID = some stored ∧ unmarshalRecord stored = .ok r
      ∧ u.proposal.Creator = .ok m
      ∧ (u.run l).2 = l.commit u.proposal [(u.recordID, marshalRecord (u.apply r m))] := by
  have h := UpdateRecord_ledger l u.proposal u.recordID u.diagnosis u.treatment u.medications
    u.status
  unfold UpdateCall.run at hok ⊢
  cases hg : l.get u.recordID with
  | none =>
    simp only [hg] at h
    rw [invoke_error l _ _ _ _ h] at hok
    simp at hok
  | some b =>
    simp only [hg] at h
    cases hd : unmarshalRecord b with
    | error e =>
      simp only [hd] at h
      rw [invoke_error l _ _ _ _ h] at hok
      simp at hok
    | ok r =>
      simp only [hd] at h
      cases hc : u.proposal.Creator with
      | error e =>
        simp only [hc] at h
        rw [invoke_error l _ _ _ _ h] at hok
        simp at hok
      | ok m =>
        simp only [hc] at h
        by_cases hk : u.recordID = ""
        · rw [if_pos hk] at h
          rw [invoke_error l _ _ _ _ h] at hok
          simp at hok
        · rw [if_neg hk] at h
          change _ = (⟨none, [(u.recordID, marshalRecord (u.apply r m))]⟩ : Outcome) at h
          exact ⟨b, r, m, rfl, hd, rfl, by rw [invoke_ok l _ _ _ h]⟩

/-- C10: when the history iterator of a key yields the modifications `mods`
without an iteration error, `GetRecordHistory` succeeds; its payload is the
marshalled list of one entry per modification in the same order, and reads back
as that list. The entry of a modification carries its transaction id and
deletion flag; its record snapshot is absent for a deletion, absent when the
value of a modification that is not a deletion fails to decode, and the decoded
record otherwise. An undecodable value does not make the operation fail. -/
theorem history_projection (ctx : TransactionContext) (recordID : String)
    (mods : List KeyModification)
    (hiter : ctx.GetStub.GetHistoryForKey recordID = .ok (mods.map .ok)) :
    GetRecordHistory ctx recordID = .ok (marshalHistory (mods.map historyEntry))
    ∧ decodeHistory (marshalHistory (mods.map historyEntry)) = some (mods.map historyEntry)
    ∧ (mods.map historyEntry).length = mods.length
    ∧ ∀ m : KeyModification,
        (historyEntry m).TxID = m.TxId
        ∧ (historyEntry m).IsDelete = m.IsDelete
        ∧ (m.IsDelete = true → (historyEntry m).Record = none)
        ∧ (m.IsDelete = false → ∀ e, unmarshalRecord m.Value = .error e →
            (historyEntry m).Record = none)
        ∧ (m.IsDelete = false → ∀ r, unmarshalRecord m.Value = .ok r →
            (historyEntry m).Record = some r) := by
  refine ⟨getRecordHistory_of_mods ctx recordID mods hiter, decodeHistory_marshalHistory _,
    List.length_map _ _, ?_⟩
  intro m
  refine ⟨?_, ?_, ?_, ?_, ?_⟩
  · cases hd : m.IsDelete <;> cases hu : unmarshalRecord m.Value <;>
      simp [historyEntry, hd, hu]
  · cases hd : m.IsDelete <;> cases hu : unmarshalRecord m.Value <;>
      simp [historyEntry, hd, hu]
  · intro hd
    simp [historyEntry, hd]
  · intro hd e he
    simp [historyEntry, hd, he]
  · intro hd r hr
    simp [historyEntry, hd, hr]

/-- A change-log of a deletion, an undecodable value and a record: the payload
reads back as three entries, the first two without a snapshot. -/
theorem history_projection_witness :
    GetRecordHistory ((⟨[], [("PAT-100", ⟨"tx1", "", ⟨1735689600, 0⟩, true⟩),
        ("PAT-100", ⟨"tx2", "not json", ⟨1735689700, 0⟩, false⟩),
        ("PAT-100", ⟨"tx3", marshalRecord PatientRecord.zero, ⟨1735689800, 0⟩, false⟩)]⟩
          : Ledger).context ⟨"tx4", ⟨1735689900, 0⟩, .ok "OrgA", fun _ => 1735689900⟩) "PAT-100"
      = .ok (marshalHistory
          [⟨"tx1", formatRFC3339 1735689600, true, none⟩,
           ⟨"tx2", formatRFC3339 1735689700, false, none⟩,
           ⟨"tx3", formatRFC3339 1735689800, false, some PatientRecord.zero⟩]) := by
  have h := (history_projection ((⟨[], [("PAT-100", ⟨"tx1", "", ⟨1735689600, 0⟩, true⟩),
        ("PAT-100", ⟨"tx2", "not json", ⟨1735689700, 0⟩, false⟩),
        ("PAT-100", ⟨"tx3", marshalRecord PatientRecord.zero, ⟨1735689800, 0⟩, false⟩)]⟩
          : Ledger).context ⟨"tx4", ⟨1735689900, 0⟩, .ok "OrgA", fun _ => 1735689900⟩) "PAT-100"
      [⟨"tx1", "", ⟨1735689600, 0⟩, true⟩, ⟨"tx2", "not json", ⟨1735689700, 0⟩, false⟩,
        ⟨"tx3", marshalRecord PatientRecord.zero, ⟨1735689800, 0⟩, false⟩] rfl).1
  rw [h]
  have e1 : historyEntry ⟨"tx1", "", ⟨1735689600, 0⟩, true⟩
      = ⟨"tx1", formatRFC3339 1735689600, true, none⟩ := rfl
  have e2 : historyEntry ⟨"tx2", "not json", ⟨1735689700, 0⟩, false⟩
      = ⟨"tx2", formatRFC3339 1735689700, false, none⟩ := rfl
  have e3 := historyEntry_marshalled "tx3" PatientRecord.zero ⟨1735689800, 0⟩
  simp only [List.map_cons, List.map_nil, e1, e2, e3]
  rfl

theorem getRecordHistory_ledger (l : Ledger) (p : Proposal) (recordID : String) :
    GetRecordHistory (l.context p) recordID
      = .ok (marshalHistory ((l.history recordID).map historyEntry)) :=
  getRecordHistory_of_mods (l.context p) recordID (l.history recordID) rfl

/-- C9: for an id that has no change-log entries, after one successful `CreateRecord` and two successful `UpdateRecord` calls on
it, `GetRecordHistory` succeeds and its payload reads back as exactly three
entries, which carry the transaction ids of the create, the first update and
the second update in this order; every entry has `isDelete = false`; the first
snapshot is the created record and the third snapshot is the record
`ReadRecord` returns after the second update. -/
theorem history_after_create_and_two_updates (l : Ledger) (c : CreateCall)
    (u1 u2 : UpdateCall) (reader : Proposal)
    (hfresh : l.history c.recordID = [])
    (hid1 : u1.recordID = c.recordID) (hid2 : u2.recordID = c.recordID)
    (hok0 : (c.run l).1 = none) (hok1 : (u1.run (c.run l).2).1 = none)
    (hok2 : (u2.run (u1.run (c.run l).2).2).1 = none) :
    ∃ payload e1 e2 e3 r m,
      GetRecordHistory ((u2.run (u1.run (c.run l).2).2).2.context reader) c.recordID
        = .ok payload
      ∧ decodeHistory payload = some [e1, e2, e3]
      ∧ e1.TxID = c.proposal.TxID ∧ e2.TxID = u1.proposal.TxID ∧ e3.TxID = u2.proposal.TxID
      ∧ e1.IsDelete = false ∧ e2.IsDelete = false ∧ e3.IsDelete = false
      ∧ c.proposal.Creator = .ok m ∧ e1.Record = some (c.record m)
      ∧ ReadRecord ((u2.run (u1.run (c.run l).2).2).2.context reader) c.recordID = .ok r
      ∧ e3.Record = some r := by
  obtain ⟨m, hm, _, hrun0⟩ := create_run_success l c hok0
  obtain ⟨s1, r1, m1, hs1, hd1, _, hrun1⟩ := update_run_success _ u1 hok1
  obtain ⟨s2, r2, m2, hs2, hd2, _, hrun2⟩ := update_run_success _ u2 hok2
  rw [hid1] at hrun1
  rw [hid2] at hrun2
  have hhist : (u2.run (u1.run (c.run l).2).2).2.history c.recordID
      = [⟨c.proposal.TxID, marshalRecord (c.record m), c.proposal.Timestamp, false⟩,
         ⟨u1.proposal.TxID, marshalRecord (u1.apply r1 m1), u1.proposal.Timestamp, false⟩,
         ⟨u2.proposal.TxID, marshalRecord (u2.apply r2 m2), u2.proposal.Timestamp, false⟩] := by
    rw [hrun2, history_commit_single, hrun1, history_commit_single, hrun0,
      history_commit_single, hfresh]
    rfl
  have hget : (u2.run (u1.run (c.run l).2).2).2.get c.recordID
      = some (marshalRecord (u2.apply r2 m2)) := by
    rw [hrun2, get_commit_single]
  have hpayload := getRecordHistory_ledger (u2.run (u1.run (c.run l).2).2).2 reader c.recordID
  rw [hhist] at hpayload
  simp only [List.map_cons, List.map_nil, historyEntry_marshalled] at hpayload
  have hread : ReadRecord ((u2.run (u1.run (c.run l).2).2).2.context reader) c.recordID
      = .ok (u2.apply r2 m2) := by
    rw [ReadRecord_ledger, hget]
    simp only [unmarshal_marshal]
  exact ⟨_,
    ⟨c.proposal.TxID,
      formatRFC3339 (timeUnix c.proposal.Timestamp.Seconds c.proposal.Timestamp.Nanos), false,
      some (c.record m)⟩,
    ⟨u1.proposal.TxID,
      formatRFC3339 (timeUnix u1.proposal.Timestamp.Seconds u1.proposal.Timestamp.Nanos), false,
      some (u1.apply r1 m1)⟩,
    ⟨u2.proposal.TxID,
      formatRFC3339 (timeUnix u2.proposal.Timestamp.Seconds u2.proposal.Timestamp.Nanos), false,
      some (u2.apply r2 m2)⟩,
    u2.apply r2 m2, m, hpayload, decodeHistory_marshalHistory _, rfl, rfl, rfl, rfl, rfl, rfl,
    hm, rfl, hread, rfl⟩

theorem create_run_get (l : Ledger) (c : CreateCall) (m : String)
    (habsent : l.get c.recordID = none) (hcaller : c.proposal.Creator = .ok m)
    (hk : c.recordID ≠ "") :
    (c.run l).1 = none ∧ (c.run l).2.get c.recordID = some (marshalRecord (c.record m)) := by
  have hok := run_succeeds l c m habsent hcaller hk
  obtain ⟨m2, hm2, _, hrun⟩ := create_run_success l c hok
  rw [hcaller] at hm2
  cases hm2
  exact ⟨hok, by rw [hrun, get_commit_single]⟩

theorem update_run_get (l : Ledger) (u : UpdateCall) (stored m : String) (r : PatientRecord)
    (hstored : l.get u.recordID = some stored) (hdecodes : unmarshalRecord stored = .ok r)
    (hcaller : u.proposal.Creator = .ok m) (hk : u.recordID ≠ "") :
    (u.run l).1 = none ∧ (u.run l).2.get u.recordID = some (marshalRecord (u.apply r m)) := by
  have hok : (u.run l).1 = none :=
    update_succeeds l u.proposal u.recordID u.diagnosis u.treatment u.medications u.status
      stored m r hstored hdecodes hcaller hk
  obtain ⟨s2, r2, m2, hs2, hd2, hm2, hrun⟩ := update_run_success l u hok
  rw [hstored] at hs2
  cases hs2
  rw [hdecodes] at hd2
  cases hd2
  rw [hcaller] at hm2
  cases hm2
  exact ⟨hok, by rw [hrun, get_commit_single]⟩

/-- The record `PAT-100` created by `OrgA`, discharged by `OrgB` and given a new
diagnosis by `OrgC` has a history of three entries. -/
theorem history_after_create_and_two_updates_witness :
    ∃ payload e1 e2 e3,
      GetRecordHistory ((UpdateCall.run
          ⟨⟨"tx3", ⟨1735689800, 0⟩, .ok "OrgC", fun _ => 1735689800⟩,
            "PAT-100", "Cold", "", "", ""⟩
          (UpdateCall.run
            ⟨⟨"tx2", ⟨1735689700, 0⟩, .ok "OrgB", fun _ => 1735689700⟩,
              "PAT-100", "", "", "", "discharged"⟩
            (CreateCall.run
              ⟨⟨"tx1", ⟨1735689600, 0⟩, .ok "OrgA", fun _ => 1735689600⟩,
                "PAT-100", "Jane Doe", "1992-01-01", "Female", "O-", "Flu", "Rest", "None",
                "Ibuprofen"⟩ Ledger.empty).2).2).2.context
          ⟨"tx4", ⟨1735689900, 0⟩, .ok "OrgA", fun _ => 1735689900⟩) "PAT-100" = .ok payload
      ∧ decodeHistory payload = some [e1, e2, e3]
      ∧ e1.TxID = "tx1" ∧ e2.TxID = "tx2" ∧ e3.TxID = "tx3" := by
  have h0 := create_run_get Ledger.empty
    ⟨⟨"tx1", ⟨1735689600, 0⟩, .ok "OrgA", fun _ => 1735689600⟩,
      "PAT-100", "Jane Doe", "1992-01-01", "Female", "O-", "Flu", "Rest", "None", "Ibuprofen"⟩
    "OrgA" rfl rfl (by decide)
  have h1 := update_run_get _
    ⟨⟨"tx2", ⟨1735689700, 0⟩, .ok "OrgB", fun _ => 1735689700⟩,
      "PAT-100", "", "", "", "discharged"⟩ _ "OrgB" _ h0.2 (unmarshal_marshal _) rfl (by decide)
  have h2 := update_run_get _
    ⟨⟨"tx3", ⟨1735689800, 0⟩, .ok "OrgC", fun _ => 1735689800⟩,
      "PAT-100", "Cold", "", "", ""⟩ _ "OrgC" _ h1.2 (unmarshal_marshal _) rfl (by decide)
  obtain ⟨payload, e1, e2, e3, _, _, hp, hd, t1, t2, t3, _⟩ :=
    history_after_create_and_two_updates Ledger.empty
      ⟨⟨"tx1", ⟨1735689600, 0⟩, .ok "OrgA", fun _ => 1735689600⟩,
        "PAT-100", "Jane Doe", "1992-01-01", "Female", "O-", "Flu", "Rest", "None", "Ibuprofen"⟩
      ⟨⟨"tx2", ⟨1735689700, 0⟩, .ok "OrgB", fun _ => 1735689700⟩,
        "PAT-100", "", "", "", "discharged"⟩
      ⟨⟨"tx3", ⟨1735689800, 0⟩, .ok "OrgC", fun _ => 1735689800⟩,
        "PAT-100", "Cold", "", "", ""⟩
      ⟨"tx4", ⟨1735689900, 0⟩, .ok "OrgA", fun _ => 1735689900⟩
      rfl rfl rfl h0.1 h1.1 h2.1
  exact ⟨payload, e1, e2, e3, hp, hd, t1, t2, t3⟩

end Healthcare

namespace Healthcare

/-! ## Rich query -/

/-- The filter text for a diagnosis that is a single double quote is not a JSON
text, so it has no selector. -/
theorem selectorOf_quote : selectorOf (queryString "\"") = none := by
  rfl

/-- C8, at the diagnosis that is a single double quote: a record created with
that diagnosis is stored and read back with it, yet `QueryRecordsByDiagnosis`
for the same diagnosis does not return it: the filter text it submits is not a
JSON text, the rich query is refused, and the operation fails. -/
theorem query_by_diagnosis_quote_fails :
    ReadRecord ((Ledger.empty.invoke ⟨"tx1", ⟨1735689600, 0⟩, .ok "OrgA", fun _ => 1735689600⟩
        fun ctx => CreateRecord ctx "PAT-100" "Jane Doe" "1992-01-01" "Female" "O-" "\"" "Rest"
          "None" "Ibuprofen").2.context
            ⟨"tx2", ⟨1735689700, 0⟩, .ok "OrgB", fun _ => 1735689700⟩) "PAT-100"
      = .ok { DocType := "patientRecord"
              RecordID := "PAT-100"
              PatientName := "Jane Doe"
              DateOfBirth := "1992-01-01"
              Gender := "Female"
              BloodType := "O-"
              Diagnosis := "\""
              Treatment := "Rest"
              Allergies := "None"
              Medications := "Ibuprofen"
              CreatedBy := "OrgA"
              CreatedAt := formatRFC3339 1735689600
              LastUpdatedBy := "OrgA"
              LastUpdatedAt := formatRFC3339 1735689600
              Status := "active" }
    ∧ QueryRecordsByDiagnosis ((Ledger.empty.invoke
        ⟨"tx1", ⟨1735689600, 0⟩, .ok "OrgA", fun _ => 1735689600⟩
        fun ctx => CreateRecord ctx "PAT-100" "Jane Doe" "1992-01-01" "Female" "O-" "\"" "Rest"
          "None" "Ibuprofen").2.context
            ⟨"tx2", ⟨1735689700, 0⟩, .ok "OrgB", fun _ => 1735689700⟩) "\""
      = .error ("failed to execute rich query: " ++ queryError) := by
  refine ⟨?_, ?_⟩
  · have h := CreateRecord_ledger Ledger.empty
      ⟨"tx1", ⟨1735689600, 0⟩, .ok "OrgA", fun _ => 1735689600⟩
      "PAT-100" "Jane Doe" "1992-01-01" "Female" "O-" "\"" "Rest" "None" "Ibuprofen"
    have hne : ("PAT-100" : String) ≠ "" := by decide
    have habs : Ledger.empty.get "PAT-100" = none := rfl
    simp only [habs, if_neg hne] at h
    rw [invoke_ok _ _ _ _ h, ReadRecord_ledger, get_commit_single]
    simp only [unmarshal_marshal]
  · unfold QueryRecordsByDiagnosis
    simp only [Ledger.context, Ledger.stub, selectorOf_quote]

end Healthcare

namespace Healthcare

/-! ## History of an id without entries -/

theorem marshalHistory_nil : marshalHistory [] = "null" := rfl

/-- C11 as amended: for every id that has no change-log entries, whether or not
the id is in the world state, `GetRecordHistory` does not fail: it succeeds
with the payload `null`, which reads back as the empty history. -/
theorem history_of_unknown_id (l : Ledger) (p : Proposal) (recordID : String)
    (hfresh : l.history recordID = []) :
    GetRecordHistory (l.context p) recordID = .ok "null"
    ∧ decodeHistory "null" = some [] := by
  refine ⟨?_, rfl⟩
  rw [getRecordHistory_ledger, hfresh]
  rfl

/-- On the empty ledger the history of `PAT-100` is the payload `null`. -/
theorem history_of_unknown_id_witness :
    GetRecordHistory (Ledger.empty.context
        ⟨"tx1", ⟨1735689600, 0⟩, .ok "OrgA", fun _ => 1735689600⟩) "PAT-100" = .ok "null"
    ∧ decodeHistory "null" = some [] :=
  history_of_unknown_id Ledger.empty ⟨"tx1", ⟨1735689600, 0⟩, .ok "OrgA", fun _ => 1735689600⟩
    "PAT-100" rfl

/-- C11 as stated fails: `PAT-100` is absent from the empty ledger and has no
change-log entries, `ReadRecord` reports it as not existing, and yet
`GetRecordHistory` returns no error. -/
theorem history_of_unknown_id_counterexample :
    Ledger.empty.get "PAT-100" = none
    ∧ Ledger.empty.history "PAT-100" = []
    ∧ ReadRecord (Ledger.empty.context
        ⟨"tx1", ⟨1735689600, 0⟩, .ok "OrgA", fun _ => 1735689600⟩) "PAT-100"
      = .error "patient record PAT-100 does not exist"
    ∧ ¬ ∃ err, GetRecordHistory (Ledger.empty.context
        ⟨"tx1", ⟨1735689600, 0⟩, .ok "OrgA", fun _ => 1735689600⟩) "PAT-100" = .error err := by
  refine ⟨rfl, rfl, rfl, ?_⟩
  rintro ⟨err, h⟩
  have h2 : GetRecordHistory (Ledger.empty.context
      ⟨"tx1", ⟨1735689600, 0⟩, .ok "OrgA", fun _ => 1735689600⟩) "PAT-100" = .ok "null" := rfl
  rw [h2] at h
  cases h

end Healthcare

namespace Healthcare

/-! ## Enumeration over undecodable values -/

theorem collectRecords_error (s : List (String × String)) :
    ∀ acc, (∃ e ∈ s, ∃ msg, unmarshalRecord e.2 = .error msg) →
      ∃ msg, collectRecords (s.map fun e => .ok ⟨e.1, e.2⟩) acc
        = .error ("failed to unmarshal: " ++ msg) := by
  induction s with
  | nil =>
    intro acc h
    obtain ⟨e, he, _⟩ := h
    cases he
  | cons a rest ih =>
    intro acc h
    cases ha : unmarshalRecord a.2 with
    | error msg =>
      refine ⟨msg, ?_⟩
      simp only [List.map_cons, collectRecords, ha]
    | ok r =>
      obtain ⟨e, he, msg, hmsg⟩ := h
      rcases List.mem_cons.mp he with rfl | he
      · rw [ha] at hmsg
        cases hmsg
      · obtain ⟨msg2, h2⟩ := ih (acc ++ [r]) ⟨e, he, msg, hmsg⟩
        refine ⟨msg2, ?_⟩
        simp only [List.map_cons, collectRecords, ha]
        exact h2

theorem getAllRecords_ledger (l : Ledger) (p : Proposal) :
    GetAllRecords (l.context p) = collectRecords (l.state.map fun e => .ok ⟨e.1, e.2⟩) [] := by
  unfold GetAllRecords
  simp only [Ledger.context, Ledger.stub, filter_inRange_all]

/-- C12: on every ledger that holds at least one value that does not decode as
a `PatientRecord`, `GetAllRecords` returns a deserialization error, and with it
no records at all; and `GetAllRecords` succeeds exactly when every value in the
ledger decodes, in which case it returns the decoded records in the order of
the ledger. -/
theorem get_all_aborts_on_undecodable (l : Ledger) (p : Proposal) :
    ((∃ e ∈ l.state, ∃ msg, unmarshalRecord e.2 = .error msg) →
      ∃ msg, GetAllRecords (l.context p) = .error ("failed to unmarshal: " ++ msg))
    ∧ ((∃ records, GetAllRecords (l.context p) = .ok records)
      ↔ ∀ e ∈ l.state, ∃ r, unmarshalRecord e.2 = .ok r)
    ∧ ∀ records, GetAllRecords (l.context p) = .ok records →
        l.state.map (fun e => unmarshalRecord e.2) = records.map .ok := by
  rw [getAllRecords_ledger]
  have hbad := collectRecords_error l.state []
  have hgood : (∀ e ∈ l.state, ∃ r, unmarshalRecord e.2 = .ok r) →
      ∃ records, collectRecords (l.state.map fun e => .ok ⟨e.1, e.2⟩) [] = .ok records
        ∧ l.state.map (fun e => unmarshalRecord e.2) = records.map .ok := by
    intro hall
    let dec : String × String → PatientRecord := fun e =>
      match unmarshalRecord e.2 with
      | .ok r => r
      | .error _ => PatientRecord.zero
    have hdec : ∀ e ∈ l.state, unmarshalRecord e.2 = .ok (dec e) := by
      intro e he
      obtain ⟨r, hr⟩ := hall e he
      show unmarshalRecord e.2 = .ok (match unmarshalRecord e.2 with
        | .ok r => r
        | .error _ => PatientRecord.zero)
      rw [hr]
    refine ⟨l.state.map dec, ?_, ?_⟩
    · rw [collectRecords_ok dec l.state [] hdec]
      rfl
    · rw [List.map_map]
      exact List.map_congr_left hdec
  have hall_of_ok : (∃ records, collectRecords (l.state.map fun e => .ok ⟨e.1, e.2⟩) []
      = .ok records) → ∀ e ∈ l.state, ∃ r, unmarshalRecord e.2 = .ok r := by
    rintro ⟨records, hrec⟩ e he
    cases hu : unmarshalRecord e.2 with
    | ok r => exact ⟨r, rfl⟩
    | error msg =>
      obtain ⟨msg2, h2⟩ := hbad ⟨e, he, msg, hu⟩
      rw [h2] at hrec
      cases hrec
  refine ⟨hbad, ⟨hall_of_ok, fun hall => ?_⟩, ?_⟩
  · obtain ⟨records, h1, _⟩ := hgood hall
    exact ⟨records, h1⟩
  · intro records hrec
    obtain ⟨records2, h1, h2⟩ := hgood (hall_of_ok ⟨records, hrec⟩)
    rw [h1] at hrec
    cases hrec
    exact h2

end Healthcare

namespace Healthcare

/-! ## Seeding -/

/-- What `InitLedger` does on the stub of a ledger: both sample records are
written, whatever the ledger holds. -/
theorem InitLedger_ledger (l : Ledger) (p : Proposal) :
    InitLedger (l.context p) = ⟨none, seedWrites (l.context p)⟩ := by
  rfl

theorem seedWrites_eq (ctx : TransactionContext) :
    seedWrites ctx
      = [("PAT-001", marshalRecord (stamp
          { DocType := "patientRecord"
            RecordID := "PAT-001"
            PatientName := "Ahmad Khan"
            DateOfBirth := "1985-03-15"
            Gender := "Male"
            BloodType := "O+"
            Diagnosis := "Type 2 Diabetes"
            Treatment := "Metformin 500mg, lifestyle counseling"
            Allergies := "Penicillin"
            Medications := "Metformin"
            CreatedBy := "OHGHospitalOrg"
            CreatedAt := formatRFC3339 (ctx.clock 0)
            LastUpdatedBy := ""
            LastUpdatedAt := ""
            Status := "active" })),
         ("PAT-002", marshalRecord (stamp
          { DocType := "patientRecord"
            RecordID := "PAT-002"
            PatientName := "Fatima Ali"
            DateOfBirth := "1990-07-22"
            Gender := "Female"
            BloodType := "A+"
            Diagnosis := "Hypertension Stage 1"
            Treatment := "Amlodipine 5mg, dietary changes"
            Allergies := "None"
            Medications := "Amlodipine"
            CreatedBy := "OHGClinicOrg"
            CreatedAt := formatRFC3339 (ctx.clock 1)
            LastUpdatedBy := ""
            LastUpdatedAt := ""
            Status := "active" }))] := by
  rfl

theorem commit_pair (l : Ledger) (p : Proposal) (k1 v1 k2 v2 : String) (h : k2 ≠ k1) :
    l.commit p [(k1, v1), (k2, v2)]
      = ⟨putKey k2 v2 (putKey k1 v1 l.state),
          l.log ++ [(k1, ⟨p.TxID, v1, p.Timestamp, false⟩), (k2, ⟨p.TxID, v2, p.Timestamp, false⟩)]⟩ := by
  simp [Ledger.commit, lastWrites, h]

theorem get_commit_pair (l : Ledger) (p : Proposal) (k1 v1 k2 v2 : String) (h : k2 ≠ k1) :
    (l.commit p [(k1, v1), (k2, v2)]).get k1 = some v1
    ∧ (l.commit p [(k1, v1), (k2, v2)]).get k2 = some v2
    ∧ ∀ k, k ≠ k1 → k ≠ k2 → (l.commit p [(k1, v1), (k2, v2)]).get k = l.get k := by
  rw [commit_pair l p k1 v1 k2 v2 h]
  refine ⟨?_, ?_, ?_⟩
  · show lookupKey k1 (putKey k2 v2 (putKey k1 v1 l.state)) = some v1
    rw [lookupKey_putKey_other _ _ _ _ (Ne.symm h), lookupKey_putKey_same]
  · exact lookupKey_putKey_same _ _ _
  · intro k h1 h2
    show lookupKey k (putKey k2 v2 (putKey k1 v1 l.state)) = lookupKey k l.state
    rw [lookupKey_putKey_other _ _ _ _ h2, lookupKey_putKey_other _ _ _ _ h1]

theorem seedWrites_commit_get (l : Ledger) (p : Proposal) (ctx : TransactionContext) :
    ∃ v1 v2, seedWrites ctx = [("PAT-001", v1), ("PAT-002", v2)]
      ∧ (l.commit p (seedWrites ctx)).get "PAT-001" = some v1
      ∧ (l.commit p (seedWrites ctx)).get "PAT-002" = some v2
      ∧ ∀ k, k ≠ "PAT-001" → k ≠ "PAT-002" → (l.commit p (seedWrites ctx)).get k = l.get k := by
  have hne : ("PAT-002" : String) ≠ "PAT-001" := by decide
  refine ⟨_, _, seedWrites_eq ctx, ?_⟩
  rw [seedWrites_eq]
  exact get_commit_pair l p _ _ _ _ hne

/-- C13 as amended: `InitLedger` makes no existence check. On every ledger,
one that a previous `InitLedger` has seeded included, an `InitLedger` call
succeeds, its writes are the two sample records, and afterwards `PAT-001` and
`PAT-002` hold the sample records stamped with the clock readings of this
call. -/
theorem init_ledger_overwrites (l : Ledger) (p : Proposal) :
    l.invoke p InitLedger = (none, l.commit p (seedWrites (l.context p)))
    ∧ (InitLedger (l.context p)).writes = seedWrites (l.context p)
    ∧ (l.invoke p InitLedger).2.get "PAT-001"
      = some (marshalRecord
          { DocType := "patientRecord"
            RecordID := "PAT-001"
            PatientName := "Ahmad Khan"
            DateOfBirth := "1985-03-15"
            Gender := "Male"
            BloodType := "O+"
            Diagnosis := "Type 2 Diabetes"
            Treatment := "Metformin 500mg, lifestyle counseling"
            Allergies := "Penicillin"
            Medications := "Metformin"
            CreatedBy := "OHGHospitalOrg"
            CreatedAt := formatRFC3339 (p.clock 0)
            LastUpdatedBy := "OHGHospitalOrg"
            LastUpdatedAt := formatRFC3339 (p.clock 0)
            Status := "active" })
    ∧ (l.invoke p InitLedger).2.get "PAT-002"
      = some (marshalRecord
          { DocType := "patientRecord"
            RecordID := "PAT-002"
            PatientName := "Fatima Ali"
            DateOfBirth := "1990-07-22"
            Gender := "Female"
            BloodType := "A+"
            Diagnosis := "Hypertension Stage 1"
            Treatment := "Amlodipine 5mg, dietary changes"
            Allergies := "None"
            Medications := "Amlodipine"
            CreatedBy := "OHGClinicOrg"
            CreatedAt := formatRFC3339 (p.clock 1)
            LastUpdatedBy := "OHGClinicOrg"
            LastUpdatedAt := formatRFC3339 (p.clock 1)
            Status := "active" }) := by
  have hinv := invoke_ok l p InitLedger _ (InitLedger_ledger l p)
  obtain ⟨v1, v2, hw, h1, h2, _⟩ := seedWrites_commit_get l p (l.context p)
  have hw2 := seedWrites_eq (l.context p)
  rw [hw] at hw2
  injection hw2 with e1 hw3
  injection hw3 with e2 _
  injection e1 with _ e1
  injection e2 with _ e2
  refine ⟨hinv, by rw [InitLedger_ledger], ?_, ?_⟩
  · rw [hinv, h1, e1]
    rfl
  · rw [hinv, h2, e2]
    rfl

/-- C13 as stated fails: on the ledger a first `InitLedger` has seeded, where
`PAT-001` and `PAT-002` are present, a second `InitLedger` returns no error, and
afterwards `PAT-001` holds the sample record stamped with the clock reading of
the second call. -/
theorem init_ledger_twice_counterexample :
    ((Ledger.empty.invoke ⟨"tx1", ⟨1735689600, 0⟩, .ok "OrgA", fun _ => 1735689600⟩
        InitLedger).2.get "PAT-001").isSome = true
    ∧ ((Ledger.empty.invoke ⟨"tx1", ⟨1735689600, 0⟩, .ok "OrgA", fun _ => 1735689600⟩
        InitLedger).2.get "PAT-002").isSome = true
    ∧ ((Ledger.empty.invoke ⟨"tx1", ⟨1735689600, 0⟩, .ok "OrgA", fun _ => 1735689600⟩
        InitLedger).2.invoke ⟨"tx2", ⟨1735689700, 0⟩, .ok "OrgA", fun _ => 1735689700⟩
        InitLedger).1 = none
    ∧ ∃ v, ((Ledger.empty.invoke ⟨"tx1", ⟨1735689600, 0⟩, .ok "OrgA", fun _ => 1735689600⟩
        InitLedger).2.invoke ⟨"tx2", ⟨1735689700, 0⟩, .ok "OrgA", fun _ => 1735689700⟩
        InitLedger).2.get "PAT-001" = some v
      ∧ ∃ r, unmarshalRecord v = .ok r ∧ r.CreatedAt = formatRFC3339 1735689700 := by
  have hinv1 := invoke_ok Ledger.empty
    ⟨"tx1", ⟨1735689600, 0⟩, .ok "OrgA", fun _ => 1735689600⟩ InitLedger _
    (InitLedger_ledger _ _)
  obtain ⟨v1, v2, _, h1, h2, _⟩ := seedWrites_commit_get Ledger.empty
    ⟨"tx1", ⟨1735689600, 0⟩, .ok "OrgA", fun _ => 1735689600⟩
    (Ledger.empty.context ⟨"tx1", ⟨1735689600, 0⟩, .ok "OrgA", fun _ => 1735689600⟩)
  have hinv2 := invoke_ok (Ledger.empty.invoke
    ⟨"tx1", ⟨1735689600, 0⟩, .ok "OrgA", fun _ => 1735689600⟩ InitLedger).2
    ⟨"tx2", ⟨1735689700, 0⟩, .ok "OrgA", fun _ => 1735689700⟩ InitLedger _
    (InitLedger_ledger _ _)
  refine ⟨?_, ?_, ?_, ?_⟩
  · rw [hinv1, h1]
    rfl
  · rw [hinv1, h2]
    rfl
  · rw [hinv2]
  · rw [hinv2, seedWrites_eq, (get_commit_pair _ _ _ _ _ _ (by decide)).1]
    exact ⟨_, rfl, _, unmarshal_marshal _, rfl⟩

end Healthcare

namespace Healthcare

/-- On a stub that takes every write under a non-empty key, `InitLedger`
succeeds with the writes of the two sample records. -/
theorem InitLedger_puts_ok (ctx : TransactionContext)
    (hputs : ∀ k v, k ≠ "" → ctx.GetStub.PutState k v = .ok ()) :
    InitLedger ctx = ⟨none, seedWrites ctx⟩ := by
  have h1 : ("PAT-001" : String) ≠ "" := by decide
  have h2 : ("PAT-002" : String) ≠ "" := by decide
  simp only [InitLedger, seedRecords, seedLoop, hputs _ _ h1, hputs _ _ h2]
  rfl

theorem seedWrites_records (ctx : TransactionContext) :
    ∃ r1 r2, seedWrites ctx = [("PAT-001", marshalRecord r1), ("PAT-002", marshalRecord r2)]
      ∧ (r1.RecordID = "PAT-001" ∧ r1.DocType = "patientRecord" ∧ r1.Status = "active"
        ∧ r1.LastUpdatedBy = r1.CreatedBy ∧ r1.LastUpdatedAt = r1.CreatedAt)
      ∧ (r2.RecordID = "PAT-002" ∧ r2.DocType = "patientRecord" ∧ r2.Status = "active"
        ∧ r2.LastUpdatedBy = r2.CreatedBy ∧ r2.LastUpdatedAt = r2.CreatedAt) := by
  refine ⟨_, _, seedWrites_eq ctx, ?_, ?_⟩
  · exact ⟨rfl, rfl, rfl, rfl, rfl⟩
  · exact ⟨rfl, rfl, rfl, rfl, rfl⟩

/-- C14: on every ledger (its stub takes the two writes), `InitLedger` succeeds,
and afterwards `PAT-001` and `PAT-002` each hold a value that `ReadRecord`
decodes to a record whose `recordID` is its key, whose `docType` is
`patientRecord`, whose `status` is `active`, and whose `lastUpdatedBy` and
`lastUpdatedAt` equal its `createdBy` and `createdAt`; every other key holds
what it held before. -/
theorem init_ledger_seeds (l : Ledger) (p reader : Proposal) :
    (l.invoke p InitLedger).1 = none
    ∧ (∃ r, ReadRecord ((l.invoke p InitLedger).2.context reader) "PAT-001" = .ok r
        ∧ r.RecordID = "PAT-001" ∧ r.DocType = "patientRecord" ∧ r.Status = "active"
        ∧ r.LastUpdatedBy = r.CreatedBy ∧ r.LastUpdatedAt = r.CreatedAt)
    ∧ (∃ r, ReadRecord ((l.invoke p InitLedger).2.context reader) "PAT-002" = .ok r
        ∧ r.RecordID = "PAT-002" ∧ r.DocType = "patientRecord" ∧ r.Status = "active"
        ∧ r.LastUpdatedBy = r.CreatedBy ∧ r.LastUpdatedAt = r.CreatedAt)
    ∧ ∀ k, k ≠ "PAT-001" → k ≠ "PAT-002" → (l.invoke p InitLedger).2.get k = l.get k := by
  have hputs : ∀ k v, k ≠ "" → (l.context p).GetStub.PutState k v = .ok () := by
    intro k v hk
    simp [Ledger.context, Ledger.stub, hk]
  have hinv := invoke_ok l p InitLedger _ (InitLedger_puts_ok (l.context p) hputs)
  obtain ⟨r1, r2, hw, hr1, hr2⟩ := seedWrites_records (l.context p)
  have hg := get_commit_pair l p "PAT-001" (marshalRecord r1) "PAT-002" (marshalRecord r2)
    (by decide)
  rw [hinv, hw]
  refine ⟨rfl, ⟨r1, ?_, hr1⟩, ⟨r2, ?_, hr2⟩, hg.2.2⟩
  · rw [ReadRecord_ledger, hg.1]
    simp only [unmarshal_marshal]
  · rw [ReadRecord_ledger, hg.2.1]
    simp only [unmarshal_marshal]

end Healthcare

namespace Healthcare

/-! ## The wire format round trip -/

/-- C15: for every `PatientRecord`, whatever text its fifteen fields hold,
decoding the marshalled record succeeds and gives the record back, equal in
every field; hence marshalling the decoded record gives the same text again. -/
theorem marshal_round_trip (r : PatientRecord) :
    unmarshalRecord (marshalRecord r) = .ok r
    ∧ ∀ r2, unmarshalRecord (marshalRecord r) = .ok r2 →
        r2 = r ∧ marshalRecord r2 = marshalRecord r := by
  have h : unmarshalRecord (marshalRecord r) = .ok r := by
    unfold unmarshalRecord marshalRecord
    rw [json.parse_render _ (plain_toJSON r)]
    simp only [decodeRecord_toJSON]
  refine ⟨h, ?_⟩
  intro r2 h2
  rw [h] at h2
  cases h2
  exact ⟨rfl, rfl⟩

/-- The test `TestPatientRecordSerialization`: the record `PAT-TEST-001`
survives marshalling and unmarshalling, with the four fields the test checks. -/
theorem marshal_round_trip_witness :
    ∃ decoded, unmarshalRecord (marshalRecord testRecord) = .ok decoded
      ∧ decoded.RecordID = "PAT-TEST-001" ∧ decoded.PatientName = "Test Patient"
      ∧ decoded.Status = "active" ∧ decoded.DocType = "patientRecord" :=
  ⟨testRecord, (marshal_round_trip testRecord).1, rfl, rfl, rfl, rfl⟩

end Healthcare

namespace Healthcare

/-! ## Updates cannot clear a field -/

theorem invoke_failed (l : Ledger) (p : Proposal) (op : TransactionContext → Outcome)
    (h : (l.invoke p op).1 ≠ none) : (l.invoke p op).2 = l := by
  unfold Ledger.invoke at h ⊢
  cases he : (op (l.context p)).err with
  | none => simp [he] at h
  | some e => simp [he]

/-- The value under a key after any `UpdateRecord` call: what it was, or the
marshalled record the call leaves for the record it was. -/
theorem update_run_get_cases (l : Ledger) (u : UpdateCall) (k stored : String)
    (r : PatientRecord) (hstored : l.get k = some stored)
    (hdecodes : unmarshalRecord stored = .ok r) :
    (u.run l).2.get k = some stored
    ∨ ∃ m, (u.run l).1 = none ∧ u.recordID = k
        ∧ (u.run l).2.get k = some (marshalRecord (u.apply r m)) := by
  by_cases hok : (u.run l).1 = none
  · obtain ⟨s2, r2, m, hs2, hd2, _, hrun⟩ := update_run_success l u hok
    by_cases hk : k = u.recordID
    · subst hk
      rw [hstored] at hs2
      cases hs2
      rw [hdecodes] at hd2
      cases hd2
      exact Or.inr ⟨m, hok, rfl, by rw [hrun, get_commit_single]⟩
    · exact Or.inl (by rw [hrun, get_commit_single_other _ _ _ _ _ hk, hstored])
  · exact Or.inl (by rw [show (u.run l).2 = l from invoke_failed l _ _ hok, hstored])

theorem updateAll_keeps_status (us : List UpdateCall) :
    ∀ (l : Ledger) (k stored : String) (r : PatientRecord), l.get k = some stored →
      unmarshalRecord stored = .ok r → r.Status ≠ "" →
      ∃ stored2 r2, (updateAll l us).get k = some stored2 ∧ unmarshalRecord stored2 = .ok r2
        ∧ r2.Status ≠ "" := by
  induction us with
  | nil =>
    intro l k stored r hs hd hne
    exact ⟨stored, r, hs, hd, hne⟩
  | cons u us ih =>
    intro l k stored r hs hd hne
    rcases update_run_get_cases l u k stored r hs hd with h | ⟨m, _, _, h⟩
    · exact ih (u.run l).2 k stored r h hd hne
    · refine ih (u.run l).2 k _ (u.apply r m) h (unmarshal_marshal _) ?_
      show (if u.status ≠ "" then u.status else r.Status) ≠ ""
      split_ifs with h1
      · exact h1
      · exact hne

/-- C16: no `UpdateRecord` call clears a field. A successful update of a stored
record leaves each of diagnosis, treatment, medications and status non-empty
when it was non-empty before; and after a successful `CreateRecord` followed by
any sequence of `UpdateRecord` calls the record read back has a non-empty
status. -/
theorem update_cannot_clear (l : Ledger) (reader : Proposal) :
    (∀ (u : UpdateCall) (stored : String) (r : PatientRecord),
      l.get u.recordID = some stored → unmarshalRecord stored = .ok r → (u.run l).1 = none →
      ∃ r2, ReadRecord ((u.run l).2.context reader) u.recordID = .ok r2
        ∧ (r.Diagnosis ≠ "" → r2.Diagnosis ≠ "")
        ∧ (r.Treatment ≠ "" → r2.Treatment ≠ "")
        ∧ (r.Medications ≠ "" → r2.Medications ≠ "")
        ∧ (r.Status ≠ "" → r2.Status ≠ ""))
    ∧ ∀ (c : CreateCall) (us : List UpdateCall), (c.run l).1 = none →
      ∃ r, ReadRecord ((updateAll (c.run l).2 us).context reader) c.recordID = .ok r
        ∧ r.Status ≠ "" := by
  refine ⟨?_, ?_⟩
  · intro u stored r hs hd hok
    obtain ⟨s2, r2, m, hs2, hd2, _, hrun⟩ := update_run_success l u hok
    rw [hs] at hs2
    cases hs2
    rw [hd] at hd2
    cases hd2
    refine ⟨u.apply r m, ?_, ?_, ?_, ?_, ?_⟩
    · rw [ReadRecord_ledger, hrun, get_commit_single]
      simp only [unmarshal_marshal]
    · intro hne
      show (if u.diagnosis ≠ "" then u.diagnosis else r.Diagnosis) ≠ ""
      split_ifs with h1
      · exact h1
      · exact hne
    · intro hne
      show (if u.treatment ≠ "" then u.treatment else r.Treatment) ≠ ""
      split_ifs with h1
      · exact h1
      · exact hne
    · intro hne
      show (if u.medications ≠ "" then u.medications else r.Medications) ≠ ""
      split_ifs with h1
      · exact h1
      · exact hne
    · intro hne
      show (if u.status ≠ "" then u.status else r.Status) ≠ ""
      split_ifs with h1
      · exact h1
      · exact hne
  · intro c us hok
    obtain ⟨m, _, _, hrun⟩ := create_run_success l c hok
    have hactive : (c.record m).Status ≠ "" := by
      show ("active" : String) ≠ ""
      decide
    obtain ⟨s2, r2, hs2, hd2, hne⟩ := updateAll_keeps_status us (c.run l).2 c.recordID
      (marshalRecord (c.record m)) (c.record m) (by rw [hrun, get_commit_single])
      (unmarshal_marshal _) hactive
    refine ⟨r2, ?_, hne⟩
    rw [ReadRecord_ledger, hs2]
    simp only [hd2]

end Healthcare

namespace Healthcare

/-! ## Unresolved caller identity -/

/-- C17: when the MSP id of the caller cannot be resolved, with error `err`:
`CreateRecord` on an absent id and `UpdateRecord` on an id that holds a decodable
record both return the identity error, take no write and leave the ledger as it
was; and `CreateRecord` on an id that is present returns the already-exists
error, `UpdateRecord` on an id that is absent the not-found error, since the
existence check comes before the identity lookup. -/
theorem identity_failure (l : Ledger) (p : Proposal) (err : String)
    (recordID patientName dateOfBirth gender bloodType diagnosis treatment allergies
      medications status : String)
    (hcaller : p.Creator = .error err) :
    (l.get recordID = none →
      CreateRecord (l.context p) recordID patientName dateOfBirth gender bloodType diagnosis
          treatment allergies medications
        = ⟨some ("failed to get client MSPID: " ++ err), []⟩
      ∧ l.invoke p (fun ctx => CreateRecord ctx recordID patientName dateOfBirth gender
          bloodType diagnosis treatment allergies medications)
        = (some ("failed to get client MSPID: " ++ err), l))
    ∧ (∀ stored r, l.get recordID = some stored → unmarshalRecord stored = .ok r →
      UpdateRecord (l.context p) recordID diagnosis treatment medications status
        = ⟨some ("failed to get client MSPID: " ++ err), []⟩
      ∧ l.invoke p (fun ctx => UpdateRecord ctx recordID diagnosis treatment medications status)
        = (some ("failed to get client MSPID: " ++ err), l))
    ∧ (∀ stored, l.get recordID = some stored →
      l.invoke p (fun ctx => CreateRecord ctx recordID patientName dateOfBirth gender
          bloodType diagnosis treatment allergies medications)
        = (some ("patient record " ++ recordID ++ " already exists"), l))
    ∧ (l.get recordID = none →
      l.invoke p (fun ctx => UpdateRecord ctx recordID diagnosis treatment medications status)
        = (some ("patient record " ++ recordID ++ " does not exist"), l)) := by
  have hc := CreateRecord_ledger l p recordID patientName dateOfBirth gender bloodType diagnosis
    treatment allergies medications
  have hu := UpdateRecord_ledger l p recordID diagnosis treatment medications status
  refine ⟨?_, ?_, ?_, ?_⟩
  · intro habs
    simp only [habs, hcaller] at hc
    exact ⟨hc, invoke_error l p _ _ _ hc⟩
  · intro stored r hs hd
    simp only [hs, hd, hcaller] at hu
    exact ⟨hu, invoke_error l p _ _ _ hu⟩
  · intro stored hs
    simp only [hs] at hc
    exact invoke_error l p _ _ _ hc
  · intro habs
    simp only [habs] at hu
    exact invoke_error l p _ _ _ hu

/-- With an unresolved caller, creating `PAT-200` on a ledger that holds only
`PAT-100` returns the identity error and leaves the ledger as it was. -/
theorem identity_failure_witness :
    (⟨[("PAT-100", marshalRecord testRecord)], []⟩ : Ledger).invoke
        ⟨"tx1", ⟨1735689600, 0⟩, .error "no identity", fun _ => 1735689600⟩
        (fun ctx => CreateRecord ctx "PAT-200" "Jane Doe" "1992-01-01" "Female" "O-" "Flu" "Rest"
          "None" "Ibuprofen")
      = (some ("failed to get client MSPID: " ++ "no identity"),
          (⟨[("PAT-100", marshalRecord testRecord)], []⟩ : Ledger)) :=
  ((identity_failure ⟨[("PAT-100", marshalRecord testRecord)], []⟩
    ⟨"tx1", ⟨1735689600, 0⟩, .error "no identity", fun _ => 1735689600⟩ "no identity"
    "PAT-200" "Jane Doe" "1992-01-01" "Female" "O-" "Flu" "Rest" "None" "Ibuprofen" "" rfl).1
      rfl).2

end Healthcare

namespace Healthcare

/-! ## Key and record agree on every reachable ledger -/

theorem agreement_commit_single (l : Ledger) (p : Proposal) (k0 : String) (r0 : PatientRecord)
    (hid : r0.RecordID = k0) (hdoc : r0.DocType = "patientRecord")
    (hl : ∀ k v, l.get k = some v →
      ∃ r, unmarshalRecord v = .ok r ∧ r.RecordID = k ∧ r.DocType = "patientRecord") :
    ∀ k v, (l.commit p [(k0, marshalRecord r0)]).get k = some v →
      ∃ r, unmarshalRecord v = .ok r ∧ r.RecordID = k ∧ r.DocType = "patientRecord" := by
  intro k v hv
  by_cases hk : k = k0
  · subst hk
    rw [get_commit_single] at hv
    cases hv
    exact ⟨r0, unmarshal_marshal _, hid, hdoc⟩
  · rw [get_commit_single_other _ _ _ _ _ hk] at hv
    exact hl k v hv

theorem agreement_of_reachable (l : Ledger) (h : Reachable l) :
    ∀ k v, l.get k = some v →
      ∃ r, unmarshalRecord v = .ok r ∧ r.RecordID = k ∧ r.DocType = "patientRecord" := by
  induction h with
  | empty =>
    intro k v hv
    cases hv
  | init l p _ ih =>
    intro k v hv
    rw [invoke_ok l p InitLedger _ (InitLedger_ledger l p)] at hv
    obtain ⟨r1, r2, hw, hr1, hr2⟩ := seedWrites_records (l.context p)
    rw [hw] at hv
    have hg := get_commit_pair l p "PAT-001" (marshalRecord r1) "PAT-002" (marshalRecord r2)
      (by decide)
    by_cases h1 : k = "PAT-001"
    · subst h1
      rw [hg.1] at hv
      cases hv
      exact ⟨r1, unmarshal_marshal _, hr1.1, hr1.2.1⟩
    · by_cases h2 : k = "PAT-002"
      · subst h2
        rw [hg.2.1] at hv
        cases hv
        exact ⟨r2, unmarshal_marshal _, hr2.1, hr2.2.1⟩
      · rw [hg.2.2 k h1 h2] at hv
        exact ih k v hv
  | create l c _ ih =>
    by_cases hok : (c.run l).1 = none
    · obtain ⟨m, _, _, hrun⟩ := create_run_success l c hok
      rw [hrun]
      exact agreement_commit_single l _ c.recordID (c.record m) rfl rfl ih
    · rw [show (c.run l).2 = l from invoke_failed l _ _ hok]
      exact ih
  | update l u _ ih =>
    by_cases hok : (u.run l).1 = none
    · obtain ⟨stored, r, m, hs, hd, _, hrun⟩ := update_run_success l u hok
      obtain ⟨r2, hd2, hid, hdoc⟩ := ih u.recordID stored hs
      rw [hd] at hd2
      cases hd2
      rw [hrun]
      exact agreement_commit_single l _ u.recordID (u.apply r m) hid hdoc ih
    · rw [show (u.run l).2 = l from invoke_failed l _ _ hok]
      exact ih

/-- C18: on every ledger reachable from the empty ledger by any sequence of
`InitLedger`, `CreateRecord` and `UpdateRecord` invocations, successful or
failing, every key that holds a value holds one that decodes as a
`PatientRecord` whose `recordID` is the key and whose `docType` is
`patientRecord`. -/
theorem key_record_agreement (l : Ledger) (k v : String) (hreach : Reachable l)
    (hget : l.get k = some v) :
    ∃ r, unmarshalRecord v = .ok r ∧ r.RecordID = k ∧ r.DocType = "patientRecord" :=
  agreement_of_reachable l hreach k v hget

/-- The ledger after `PAT-100` is created on the empty ledger is reachable, and
the value it holds under `PAT-100` decodes to a record of that id. -/
theorem key_record_agreement_witness :
    ∃ r, unmarshalRecord (marshalRecord (CreateCall.record
        ⟨⟨"tx1", ⟨1735689600, 0⟩, .ok "OrgA", fun _ => 1735689600⟩,
          "PAT-100", "Jane Doe", "1992-01-01", "Female", "O-", "Flu", "Rest", "None",
          "Ibuprofen"⟩ "OrgA")) = .ok r
      ∧ r.RecordID = "PAT-100" ∧ r.DocType = "patientRecord" :=
  key_record_agreement
    (CreateCall.run ⟨⟨"tx1", ⟨1735689600, 0⟩, .ok "OrgA", fun _ => 1735689600⟩,
      "PAT-100", "Jane Doe", "1992-01-01", "Female", "O-", "Flu", "Rest", "None",
      "Ibuprofen"⟩ Ledger.empty).2
    "PAT-100" _
    (Reachable.create Ledger.empty _ Reachable.empty)
    (create_run_get Ledger.empty
      ⟨⟨"tx1", ⟨1735689600, 0⟩, .ok "OrgA", fun _ => 1735689600⟩,
        "PAT-100", "Jane Doe", "1992-01-01", "Female", "O-", "Flu", "Rest", "None",
        "Ibuprofen"⟩ "OrgA" rfl rfl (by decide)).2

end Healthcare

namespace Healthcare

/-! ## What an operation touches -/

theorem history_commit_single_other (l : Ledger) (p : Proposal) (k0 v k : String)
    (h : k ≠ k0) : (l.commit p [(k0, v)]).history k = l.history k := by
  rw [commit_single]
  simp [Ledger.history, List.filterMap_append, Ne.symm h]

theorem invoke_readOnly {α : Type} (l : Ledger) (p : Proposal)
    (op : TransactionContext → Except String α) :
    (l.invoke p fun ctx => readOnly (op ctx)).2 = l := by
  unfold Ledger.invoke
  cases h : op (l.context p) with
  | error e => simp [readOnly, h]
  | ok a => simp [readOnly, h, Ledger.commit, lastWrites]

/-- C19: every operation touches at most the key it is called with. After a
`CreateRecord` or an `UpdateRecord` call, successful or not, every key other
than the id of the call holds the value and has the change-log it had before;
and `ReadRecord`, `GetAllRecords`, `QueryRecordsByDiagnosis` and
`GetRecordHistory`, which take no write, leave the whole ledger as it was. -/
theorem operations_touch_own_key (l : Ledger) (p : Proposal) (c : CreateCall) (u : UpdateCall)
    (recordID diagnosis : String) :
    (∀ k, k ≠ c.recordID →
      (c.run l).2.get k = l.get k ∧ (c.run l).2.history k = l.history k)
    ∧ (∀ k, k ≠ u.recordID →
      (u.run l).2.get k = l.get k ∧ (u.run l).2.history k = l.history k)
    ∧ (l.invoke p fun ctx => readOnly (ReadRecord ctx recordID)).2 = l
    ∧ (l.invoke p fun ctx => readOnly (GetAllRecords ctx)).2 = l
    ∧ (l.invoke p fun ctx => readOnly (QueryRecordsByDiagnosis ctx diagnosis)).2 = l
    ∧ (l.invoke p fun ctx => readOnly (GetRecordHistory ctx recordID)).2 = l := by
  refine ⟨?_, ?_, invoke_readOnly l p _, invoke_readOnly l p _, invoke_readOnly l p _,
    invoke_readOnly l p _⟩
  · intro k hk
    by_cases hok : (c.run l).1 = none
    · obtain ⟨m, _, _, hrun⟩ := create_run_success l c hok
      rw [hrun]
      exact ⟨get_commit_single_other _ _ _ _ _ hk, history_commit_single_other _ _ _ _ _ hk⟩
    · rw [show (c.run l).2 = l from invoke_failed l _ _ hok]
      exact ⟨rfl, rfl⟩
  · intro k hk
    by_cases hok : (u.run l).1 = none
    · obtain ⟨stored, r, m, _, _, _, hrun⟩ := update_run_success l u hok
      rw [hrun]
      exact ⟨get_commit_single_other _ _ _ _ _ hk, history_commit_single_other _ _ _ _ _ hk⟩
    · rw [show (u.run l).2 = l from invoke_failed l _ _ hok]
      exact ⟨rfl, rfl⟩

end Healthcare

namespace Healthcare

/-! ## The text of the query filter -/

namespace json

theorem parseStringBody_raw (s : List Char) (rest : List Char) :
    ∀ n, rawSafe s → s.length < n → parseStringBody n (s ++ dquote :: rest) = some (s, rest) := by
  induction s with
  | nil =>
    intro n _ hn
    obtain ⟨m, rfl⟩ : ∃ m, n = m + 1 := ⟨n - 1, by simp at hn; omega⟩
    simp [parseStringBody]
  | cons c cs ih =>
    intro n hs hn
    obtain ⟨m, rfl⟩ : ∃ m, n = m + 1 := ⟨n - 1, by simp at hn; omega⟩
    have hm : cs.length < m := by simpa using hn
    have hc := hs c (List.mem_cons_self _ _)
    have hcs : rawSafe cs := fun x hx => hs x (List.mem_cons_of_mem _ hx)
    have h32 : ¬ c.toNat < 32 := by omega
    show parseStringBody (m + 1) (c :: (cs ++ dquote :: rest)) = _
    simp only [parseStringBody, hc.1, hc.2.1, h32, if_false, ih m hcs hm]
    rfl

theorem parseValue_raw_string (s : List Char) (rest : List Char) (n : Nat) (hs : rawSafe s) :
    parseValue (n + 1) (dquote :: (s ++ dquote :: rest))
      = some (Value.string (String.mk s), rest) := by
  have hq : isSpace dquote = false := by decide
  have h := parseStringBody_raw s rest ((s ++ dquote :: rest).length + 1) hs
    (by simp only [List.length_append, List.length_cons]; omega)
  rw [parseValue, skipWs_cons hq]
  simp only [if_true, h, Option.map_some']

end json

theorem queryString_data (d : String) :
    (queryString d).data
      = '{' :: (json.quote "selector" ++ ':' :: ('{' :: (json.quote "docType" ++ ':' ::
          (json.quote "patientRecord" ++ ',' :: (json.quote "diagnosis" ++ ':' ::
            (json.dquote :: (d.data ++ json.dquote :: ['}', '}']))))))) := by
  simp only [queryString, String.data_append]
  rfl

theorem parseValue_queryString (d : String) (hd : rawSafe d.data) (m : Nat) :
    json.parseValue (m + 6) (queryString d).data = some (intendedFilter d, []) := by
  have hs : json.isSpace json.dquote = false := by decide
  have hne : json.dquote ≠ '}' := by decide
  have h1 : json.parseValue (m + 1) (json.dquote :: (d.data ++ json.dquote :: ['}', '}']))
      = some (json.Value.string d, ['}', '}']) :=
    json.parseValue_raw_string d.data ['}', '}'] m hd
  have h2 : json.parseMembers (m + 2) (json.quote "diagnosis" ++ ':' ::
      (json.dquote :: (d.data ++ json.dquote :: ['}', '}'])))
      = some ([("diagnosis", json.Value.string d)], ['}']) :=
    json.parseMembers_last (m + 1) "diagnosis" _ ['}'] _ h1
  have h3 : json.parseValue (m + 2) (json.quote "patientRecord" ++ ',' ::
      (json.quote "diagnosis" ++ ':' ::
        (json.dquote :: (d.data ++ json.dquote :: ['}', '}']))))
      = some (json.Value.string "patientRecord", ',' :: (json.quote "diagnosis" ++ ':' ::
        (json.dquote :: (d.data ++ json.dquote :: ['}', '}'])))) :=
    json.parseValue_string "patientRecord" _ (m + 1)
  have h4 : json.parseMembers (m + 3) (json.quote "docType" ++ ':' ::
      (json.quote "patientRecord" ++ ',' :: (json.quote "diagnosis" ++ ':' ::
        (json.dquote :: (d.data ++ json.dquote :: ['}', '}'])))))
      = some ([("docType", json.Value.string "patientRecord"),
          ("diagnosis", json.Value.string d)], ['}']) := by
    rw [json.parseMembers_more (m + 2) "docType" _ _ _ h3, h2]
    rfl
  have h5 : json.parseValue (m + 4) ('{' :: (json.quote "docType" ++ ':' ::
      (json.quote "patientRecord" ++ ',' :: (json.quote "diagnosis" ++ ':' ::
        (json.dquote :: (d.data ++ json.dquote :: ['}', '}']))))))
      = some (json.Value.object [("docType", json.Value.string "patientRecord"),
          ("diagnosis", json.Value.string d)], ['}']) := by
    have e : json.quote "docType" ++ ':' ::
        (json.quote "patientRecord" ++ ',' :: (json.quote "diagnosis" ++ ':' ::
          (json.dquote :: (d.data ++ json.dquote :: ['}', '}']))))
        = json.dquote :: (json.escape "docType".data ++ [json.dquote] ++ ':' ::
        (json.quote "patientRecord" ++ ',' :: (json.quote "diagnosis" ++ ':' ::
          (json.dquote :: (d.data ++ json.dquote :: ['}', '}']))))) := rfl
    rw [e] at h4 ⊢
    rw [json.parseValue_object_step (m + 3) json.dquote _ hs hne, h4]
    rfl
  have h6 : json.parseMembers (m + 5) (json.quote "selector" ++ ':' ::
      ('{' :: (json.quote "docType" ++ ':' ::
        (json.quote "patientRecord" ++ ',' :: (json.quote "diagnosis" ++ ':' ::
          (json.dquote :: (d.data ++ json.dquote :: ['}', '}'])))))))
      = some ([("selector", json.Value.object [("docType", json.Value.string "patientRecord"),
          ("diagnosis", json.Value.string d)])], []) :=
    json.parseMembers_last (m + 4) "selector" _ [] _ h5
  rw [queryString_data]
  have e : json.quote "selector" ++ ':' ::
      ('{' :: (json.quote "docType" ++ ':' ::
        (json.quote "patientRecord" ++ ',' :: (json.quote "diagnosis" ++ ':' ::
          (json.dquote :: (d.data ++ json.dquote :: ['}', '}']))))))
      = json.dquote :: (json.escape "selector".data ++ [json.dquote] ++ ':' ::
      ('{' :: (json.quote "docType" ++ ':' ::
        (json.quote "patientRecord" ++ ',' :: (json.quote "diagnosis" ++ ':' ::
          (json.dquote :: (d.data ++ json.dquote :: ['}', '}']))))))) := rfl
  rw [e] at h6 ⊢
  rw [json.parseValue_object_step (m + 5) json.dquote _ hs hne, h6]
  rfl

theorem parse_queryString (d : String) (hd : rawSafe d.data) :
    json.parse (queryString d) = some (intendedFilter d) := by
  have hlen : 5 ≤ (queryString d).length := by
    show 5 ≤ (queryString d).data.length
    rw [queryString_data]
    simp only [List.length_cons, List.length_append]
    omega
  have h := parseValue_queryString d hd ((queryString d).length - 5)
  have e : (queryString d).length - 5 + 6 = (queryString d).length + 1 := by omega
  rw [e] at h
  unfold json.parse
  rw [h]
  rfl

/-- C20: for every diagnosis without a double quote, a backslash or a character
below U+0020, the filter text `QueryRecordsByDiagnosis` submits is a JSON text
that parses to the object with the one member `selector`, whose conditions are
exactly `docType = "patientRecord"` and `diagnosis = d`. For a diagnosis with a
double quote this fails: for the diagnosis that is a single double quote the
text is not JSON, and for `Flu","status":"active` it parses to a selector with
a third condition on `status`, and with the diagnosis `Flu`. -/
theorem query_filter_text :
    (∀ d : String, rawSafe d.data →
      json.parse (queryString d) = some (intendedFilter d)
      ∧ selectorOf (queryString d)
        = some [("docType", .string "patientRecord"), ("diagnosis", .string d)])
    ∧ (json.dquote ∈ ("\"" : String).data ∧ json.parse (queryString "\"") = none)
    ∧ (json.dquote ∈ ("Flu\",\"status\":\"active" : String).data
      ∧ json.parse (queryString "Flu\",\"status\":\"active")
        = some (.object [("selector", .object [("docType", .string "patientRecord"),
            ("diagnosis", .string "Flu"), ("status", .string "active")])])
      ∧ json.parse (queryString "Flu\",\"status\":\"active")
        ≠ some (intendedFilter "Flu\",\"status\":\"active")) := by
  refine ⟨?_, ⟨by decide, rfl⟩, by decide, rfl, ?_⟩
  · intro d hd
    have h := parse_queryString d hd
    refine ⟨h, ?_⟩
    unfold selectorOf
    rw [h]
    rfl
  · have h : json.parse (queryString "Flu\",\"status\":\"active")
        = some (.object [("selector", .object [("docType", .string "patientRecord"),
            ("diagnosis", .string "Flu"), ("status", .string "active")])]) := rfl
    rw [h]
    intro h2
    simp [intendedFilter] at h2

/-- The filter text for the diagnosis `Flu` parses to the intended filter. -/
theorem query_filter_text_witness :
    json.parse (queryString "Flu") = some (intendedFilter "Flu") :=
  (query_filter_text.1 "Flu" (by decide)).1

end Healthcare
